import Mathlib

/-!
# Verification of the my-gpu-exporter collection engine

Shallow embedding of the per-process GPU energy collector
(`pkg/collector`, estimation-enabled variant), the retention manager
(`pkg/process`), and the Prometheus exporter (`pkg/exporter`).

Go `map[uint]V` values are modelled as association lists `List (Nat × V)`
(Go maps have unique keys; lookups return the first matching entry, and
inserts replace in place or append).  `float64` values are modelled as `ℚ`
and `time.Time` as `ℚ` (seconds); a collection cycle receives one `now`
value, standing for the `time.Now()` calls made during the cycle.
-/

/-- Lookup in an association list keyed by `Nat` (Go `map` read). -/
def alistLookup {α : Type} : List (Nat × α) → Nat → Option α
  | [], _ => none
  | e :: rest, k => if e.1 = k then some e.2 else alistLookup rest k

/-- Insert into an association list (Go `map` write): replace the entry in
place when the key exists, otherwise append. -/
def alistInsert {α : Type} : List (Nat × α) → Nat → α → List (Nat × α)
  | [], k, v => [(k, v)]
  | e :: rest, k, v => if e.1 = k then (k, v) :: rest else e :: alistInsert rest k v

/-- Remove a key from an association list (Go `delete`). -/
def alistErase {α : Type} : List (Nat × α) → Nat → List (Nat × α)
  | [], _ => []
  | e :: rest, k => if e.1 = k then alistErase rest k else e :: alistErase rest k

/-- Update every value in place, Go-style iteration that mutates the map's
values but never its key set. -/
def alistMapVals {α : Type} (f : Nat → α → α) (l : List (Nat × α)) : List (Nat × α) :=
  l.map (fun e => (e.1, f e.1 e.2))

/-- The keys of an association list are pairwise distinct (true of every
Go map; stated explicitly because lists can express more). -/
def NodupKeys {α : Type} (l : List (Nat × α)) : Prop := (l.map Prod.fst).Nodup

/-! ## Data model (`pkg/dcgm`, `pkg/collector`, `pkg/kubernetes`) -/

/-- `dcgm.ProcessMetrics` — the telemetry record returned by
`Client.GetProcessMetrics` (src/unnamed/part_004). -/
structure DcgmProcessMetrics where
  GPU : Nat
  ProcessName : String
  EnergyConsumed : ℚ
  SmUtilization : ℚ
  MemUtilization : ℚ
  MemoryUsedBytes : Nat
  StartTime : ℚ
  EndTime : ℚ
  IsRunning : Bool
deriving Repr, DecidableEq

/-- `kubernetes.PodInfo`. -/
structure PodInfo where
  PodName : String
  PodNamespace : String
  ContainerName : String
deriving Repr, DecidableEq

/-- `collector.ProcessMetrics` (estimation-enabled variant,
src/unnamed/part_007 lines 618-646). -/
structure ProcessMetrics where
  PID : Nat
  GPU : Nat
  ProcessName : String
  IsRunning : Bool
  EnergyJoules : ℚ
  EnergyEstimated : Bool
  SmUtilization : ℚ
  MemUtilization : ℚ
  MemoryUsedBytes : Nat
  StartTime : ℚ
  EndTime : ℚ
  PodName : String
  PodNamespace : String
  ContainerName : String
  ContainerID : String
deriving Repr, DecidableEq

/-- `process.GPUProcess` as consumed by `Collect`: the discovered PID and
the NVML memory reading used as fallback. -/
structure DiscoveredProcess where
  PID : Nat
  MemoryUsed : Nat
deriving Repr, DecidableEq

/-- `config.Config`, restricted to the fields the collection cycle reads. -/
structure Config where
  EnableEnergyEstimation : Bool
  GPUIdlePower : ℚ
  DCGMUpdateFrequency : ℚ
deriving Repr, DecidableEq

/-- The external world observed during one collection cycle: the result of
`discovery.DiscoverProcesses`, the per-PID results of
`process.GetContainerID` and `dcgmClient.GetProcessMetrics`, the pod
lookup (`podMapper.GetPodInfo` together with its by-UID fallback, folded
into one container-ID-keyed lookup), `dcgmClient.GetGPUPowerUsage`, and
the cycle's wall clock. -/
structure CycleEnv where
  discovered : Except Unit (List DiscoveredProcess)
  containerID : Nat → Except Unit String
  podInfo : String → Option PodInfo
  dcgmMetrics : Nat → Except Unit (Option DcgmProcessMetrics)
  gpuPowerUsage : Nat → Except Unit ℚ
  now : ℚ

/-! ## Retention manager (`pkg/process`, src/unnamed/part_001) -/

/-- `process.RetentionManager`: exit timestamps keyed by PID, plus the
configured retention period. -/
structure RetentionManager where
  exitedProcesses : List (Nat × ℚ)
  retention : ℚ
deriving Repr, DecidableEq

/-- `RetentionManager.MarkExited`: record the exit time, first call wins. -/
def RetentionManager.MarkExited (rm : RetentionManager) (pid : Nat) (now : ℚ) :
    RetentionManager :=
  match alistLookup rm.exitedProcesses pid with
  | some _ => rm
  | none => { rm with exitedProcesses := alistInsert rm.exitedProcesses pid now }

/-- `RetentionManager.IsExited`. -/
def RetentionManager.IsExited (rm : RetentionManager) (pid : Nat) : Bool :=
  (alistLookup rm.exitedProcesses pid).isSome

/-- `RetentionManager.ShouldRetain`: true iff the PID exited and
`now - exitTime < retention`. -/
def RetentionManager.ShouldRetain (rm : RetentionManager) (pid : Nat) (now : ℚ) : Bool :=
  match alistLookup rm.exitedProcesses pid with
  | none => false
  | some exitTime => decide (now - exitTime < rm.retention)

/-- `RetentionManager.CleanupExpired`: drop every entry with
`now - exitTime ≥ retention`. -/
def RetentionManager.CleanupExpired (rm : RetentionManager) (now : ℚ) : RetentionManager :=
  { rm with exitedProcesses :=
      rm.exitedProcesses.filter (fun e => decide (now - e.2 < rm.retention)) }

/-- `RetentionManager.GetExitedProcesses`. -/
def RetentionManager.GetExitedProcesses (rm : RetentionManager) : List Nat :=
  rm.exitedProcesses.map Prod.fst

/-! ## Collector (`pkg/collector`, src/unnamed/part_007 lines 648-1026) -/

/-- `collector.Collector`'s mutable state: the PID-keyed metric store, the
retention manager, the per-GPU active-process counts, and the per-GPU
last-estimation timestamps. -/
structure Collector where
  processMetrics : List (Nat × ProcessMetrics)
  retention : RetentionManager
  gpuProcessCount : List (Nat × Nat)
  lastEstimationTime : List (Nat × ℚ)
deriving Repr, DecidableEq

/-- Building the `ProcessMetrics` literal in `Collect` (lines 793-823):
NVML memory fallback when DCGM reports zero, pod labels when pod info is
available, `EnergyEstimated` left at its zero value `false`. -/
def buildProcessMetrics (proc : DiscoveredProcess) (cid : String)
    (pod : Option PodInfo) (m : DcgmProcessMetrics) : ProcessMetrics :=
  let memoryUsed := if m.MemoryUsedBytes = 0 ∧ 0 < proc.MemoryUsed
    then proc.MemoryUsed else m.MemoryUsedBytes
  { PID := proc.PID
    GPU := m.GPU
    ProcessName := m.ProcessName
    IsRunning := m.IsRunning
    EnergyJoules := m.EnergyConsumed
    EnergyEstimated := false
    SmUtilization := m.SmUtilization
    MemUtilization := m.MemUtilization
    MemoryUsedBytes := memoryUsed
    StartTime := m.StartTime
    EndTime := m.EndTime
    PodName := (pod.map PodInfo.PodName).getD ""
    PodNamespace := (pod.map PodInfo.PodNamespace).getD ""
    ContainerName := (pod.map PodInfo.ContainerName).getD ""
    ContainerID := cid }

/-- The store write of `Collect` (lines 825-833): when a prior record
exists and is `EnergyEstimated`, keep its accumulated energy and the
flag; otherwise store the freshly built record as-is. -/
def upsertProcess (store : List (Nat × ProcessMetrics)) (pm : ProcessMetrics) :
    List (Nat × ProcessMetrics) :=
  match alistLookup store pm.PID with
  | some existingPM =>
      if existingPM.EnergyEstimated then
        alistInsert store pm.PID
          { pm with EnergyJoules := existingPM.EnergyJoules, EnergyEstimated := true }
      else alistInsert store pm.PID pm
  | none => alistInsert store pm.PID pm

/-- One iteration of the per-process loop of `Collect` (lines 733-839):
skip on container-ID error, on empty container ID, on DCGM error and on
absent DCGM data; otherwise build the record and upsert it. -/
def processOne (env : CycleEnv) (store : List (Nat × ProcessMetrics))
    (proc : DiscoveredProcess) : List (Nat × ProcessMetrics) :=
  match env.containerID proc.PID with
  | .error _ => store
  | .ok cid =>
    if cid = "" then store
    else
      match env.dcgmMetrics proc.PID with
      | .error _ => store
      | .ok none => store
      | .ok (some m) => upsertProcess store (buildProcessMetrics proc cid (env.podInfo cid) m)

/-- The whole per-process loop. -/
def upsertPhase (env : CycleEnv) (store : List (Nat × ProcessMetrics))
    (procs : List DiscoveredProcess) : List (Nat × ProcessMetrics) :=
  procs.foldl (processOne env) store

/-- Whether a discovered PID makes it through the filter chain to the
store write. -/
def isRecorded (env : CycleEnv) (proc : DiscoveredProcess) : Bool :=
  match env.containerID proc.PID with
  | .error _ => false
  | .ok cid =>
    if cid = "" then false
    else
      match env.dcgmMetrics proc.PID with
      | .error _ => false
      | .ok none => false
      | .ok (some _) => true

/-- Condition of the exited-process check (line 844):
`!seenPIDs[pid] && !c.retention.IsExited(pid)`. -/
def exitCandidate (seen : List Nat) (rm : RetentionManager) (pid : Nat) : Bool :=
  !(seen.contains pid) && !(rm.IsExited pid)

/-- Store effect of the exited-process loop (lines 842-853): clear
`IsRunning` on every candidate.  (The Go loop checks `IsExited` against
the retention state as it marks, but marking one PID never changes
`IsExited` of another, so the check is against the initial state.) -/
def markExitedStore (seen : List Nat) (rm : RetentionManager)
    (store : List (Nat × ProcessMetrics)) : List (Nat × ProcessMetrics) :=
  alistMapVals
    (fun pid pm => if exitCandidate seen rm pid then { pm with IsRunning := false } else pm)
    store

/-- Retention effect of the exited-process loop: `MarkExited` every
candidate at the cycle's clock. -/
def markExitedRM (seen : List Nat) (rm : RetentionManager)
    (store : List (Nat × ProcessMetrics)) (now : ℚ) : RetentionManager :=
  (store.filter (fun e => exitCandidate seen rm e.1)).foldl
    (fun r e => r.MarkExited e.1 now) rm

/-- The expiry loop of `Collect` (lines 856-864): walk the retention
manager's exited PIDs and delete from the store those no longer
retainable. -/
def removalPhase (now : ℚ) (rm : RetentionManager)
    (store : List (Nat × ProcessMetrics)) : List (Nat × ProcessMetrics) :=
  rm.GetExitedProcesses.foldl
    (fun s pid => if rm.ShouldRetain pid now then s else alistErase s pid) store

/-- The running records of one GPU, in store order — the group built by
`detectAndValidateTimeSlicing` (lines 880-887). -/
def runningOnGpu (store : List (Nat × ProcessMetrics)) (g : Nat) : List ProcessMetrics :=
  (store.map Prod.snd).filter (fun pm => pm.IsRunning && pm.GPU == g)

/-- The GPUs having at least one running record. -/
def gpusWithRunning (store : List (Nat × ProcessMetrics)) : List Nat :=
  (((store.map Prod.snd).filter (fun pm => pm.IsRunning)).map ProcessMetrics.GPU).dedup

/-- `totalSMUtil` of `applyEnergyEstimation` (lines 927-931): the sum of
SM utilization over the GPU's co-resident running records. -/
def totalSMUtilOn (store : List (Nat × ProcessMetrics)) (g : Nat) : ℚ :=
  ((runningOnGpu store g).map ProcessMetrics.SmUtilization).sum

/-- `intervalSeconds` of `applyEnergyEstimation` (lines 946-953): elapsed
time since the last estimation for this GPU, seeded with the configured
DCGM update frequency. -/
def estimationInterval (cfg : Config) (now : ℚ) (lastEst : List (Nat × ℚ)) (g : Nat) : ℚ :=
  match alistLookup lastEst g with
  | some lastTime => now - lastTime
  | none => cfg.DCGMUpdateFrequency

/-- `activePower` of `applyEnergyEstimation` (lines 956-960): GPU power
minus configured idle power, clamped below at zero. -/
def activePowerOf (cfg : Config) (gpuPower : ℚ) : ℚ :=
  if gpuPower - cfg.GPUIdlePower < 0 then 0 else gpuPower - cfg.GPUIdlePower

/-- The per-record update of the estimation loop (lines 974-993): records
running on this GPU accumulate their SM-proportional share of the interval
energy and latch `EnergyEstimated`; everything else is untouched. -/
def estimationBump (gpuEnergyJoules totalSMUtil : ℚ) (gpuID : Nat)
    (pm : ProcessMetrics) : ProcessMetrics :=
  if pm.IsRunning && pm.GPU == gpuID then
    { pm with
      EnergyJoules := pm.EnergyJoules + gpuEnergyJoules * (pm.SmUtilization / totalSMUtil)
      EnergyEstimated := true }
  else pm

/-- `Collector.applyEnergyEstimation` (lines 925-996).  Returns the
updated store and last-estimation map.  When total SM utilization is zero
the function returns before touching anything (in particular before the
`lastEstimationTime` update); a power-query error likewise leaves the
state unchanged.  Otherwise the interval since the previous estimation
is priced at the idle-power-clamped GPU power and distributed over the
co-resident records in proportion to SM utilization. -/
def applyEnergyEstimation (cfg : Config) (env : CycleEnv) (gpuID : Nat)
    (store : List (Nat × ProcessMetrics)) (lastEst : List (Nat × ℚ)) :
    List (Nat × ProcessMetrics) × List (Nat × ℚ) :=
  let totalSMUtil := totalSMUtilOn store gpuID
  if totalSMUtil = 0 then (store, lastEst)
  else
    match env.gpuPowerUsage gpuID with
    | .error _ => (store, lastEst)
    | .ok gpuPower =>
      let intervalSeconds := estimationInterval cfg env.now lastEst gpuID
      let lastEst' := alistInsert lastEst gpuID env.now
      let gpuEnergyJoules := activePowerOf cfg gpuPower * intervalSeconds
      (alistMapVals (fun _ pm => estimationBump gpuEnergyJoules totalSMUtil gpuID pm) store,
       lastEst')

/-- One iteration of `detectAndValidateTimeSlicing`'s per-GPU loop
(lines 889-922). -/
def detectStep (cfg : Config) (env : CycleEnv) (acc : Collector) (gpuID : Nat) : Collector :=
  let processCount := (runningOnGpu acc.processMetrics gpuID).length
  let acc' := { acc with gpuProcessCount := alistInsert acc.gpuProcessCount gpuID processCount }
  if processCount = 1 then acc'
  else if cfg.EnableEnergyEstimation then
    let res := applyEnergyEstimation cfg env gpuID acc'.processMetrics acc'.lastEstimationTime
    { acc' with processMetrics := res.1, lastEstimationTime := res.2 }
  else acc'

/-- `Collector.detectAndValidateTimeSlicing` (lines 875-923): per GPU with
running records, record the process count; with a single process keep the
DCGM value; with several and estimation enabled, apply estimation.
(Estimation for one GPU never touches another GPU's records, their
`IsRunning`, `GPU` or `SmUtilization` fields, so recomputing each group
from the accumulated store equals the Go code's single upfront grouping.) -/
def detectAndValidateTimeSlicing (cfg : Config) (env : CycleEnv) (c : Collector) :
    Collector :=
  (gpusWithRunning c.processMetrics).foldl (detectStep cfg env) c

/-- The successful path of `Collector.Collect` (lines 727-873): upsert
every discovered PID that passes the filters, mark unseen PIDs exited,
evict expired records, clean the retention manager, then run time-slicing
detection. -/
def collectCycle (cfg : Config) (env : CycleEnv) (c : Collector)
    (procs : List DiscoveredProcess) : Collector :=
  let seenPIDs := procs.map DiscoveredProcess.PID
  let store1 := upsertPhase env c.processMetrics procs
  let store2 := markExitedStore seenPIDs c.retention store1
  let rm2 := markExitedRM seenPIDs c.retention store1 env.now
  let store3 := removalPhase env.now rm2 store2
  let rm3 := rm2.CleanupExpired env.now
  detectAndValidateTimeSlicing cfg env
    { c with processMetrics := store3, retention := rm3 }

/-- `Collector.Collect` (lines 717-873).  The pair's second component is
the returned error: discovery failure is the only error path, and it
returns before any state is touched. -/
def Collector.Collect (cfg : Config) (env : CycleEnv) (c : Collector) :
    Collector × Option Unit :=
  match env.discovered with
  | .error _ => (c, some ())
  | .ok procs => (collectCycle cfg env c procs, none)

/-- `Collector.GetMetrics` (lines 998-1011): a snapshot of the store (the
deep copy is identity in a value model). -/
def Collector.GetMetrics (c : Collector) : List (Nat × ProcessMetrics) :=
  c.processMetrics

/-! ## Exporter (`pkg/exporter`, src/unnamed/part_006) -/

/-- One iteration of the aggregation loop of `exportGPUAggregations`
(lines 215-220): running records add their energy to their GPU's total and
bump their GPU's process count; non-running records are skipped. -/
def exportAggStep (acc : List (Nat × ℚ) × List (Nat × Nat)) (pm : ProcessMetrics) :
    List (Nat × ℚ) × List (Nat × Nat) :=
  if pm.IsRunning then
    (alistInsert acc.1 pm.GPU ((alistLookup acc.1 pm.GPU).getD 0 + pm.EnergyJoules),
     alistInsert acc.2 pm.GPU ((alistLookup acc.2 pm.GPU).getD 0 + 1))
  else acc

/-- `Exporter.exportGPUAggregations` (lines 209-240): one pass over the
snapshot accumulating, for running records only, the per-GPU energy sum
and the per-GPU process count. -/
def exportGPUAggregations (metrics : List ProcessMetrics) :
    List (Nat × ℚ) × List (Nat × Nat) :=
  metrics.foldl exportAggStep ([], [])

/-- `Exporter.Collect` (lines 120-207): trigger a collection cycle; on
error, return without emitting anything; otherwise emit one per-process
series group per snapshot record plus the GPU aggregations.  The result
lists are the emitted per-process records, per-GPU energy totals and
per-GPU process counts. -/
def Exporter.Collect (cfg : Config) (env : CycleEnv) (c : Collector) :
    List ProcessMetrics × List (Nat × ℚ) × List (Nat × Nat) :=
  match Collector.Collect cfg env c with
  | (_, some _) => ([], [], [])
  | (c', none) =>
    let metrics := (Collector.GetMetrics c').map Prod.snd
    let agg := exportGPUAggregations metrics
    (metrics, agg.1, agg.2)

/-! ## Hypothesis predicates

Decidable formulations of the environment conditions the invariant
theorems assume: non-negative telemetry SM utilization, non-regressing
telemetry energy, and expiry of a retention entry. -/

/-- The telemetry answer for a PID (if any) carries a non-negative SM
utilization. -/
def dcgmSmNonneg (env : CycleEnv) (p : Nat) : Bool :=
  match env.dcgmMetrics p with
  | .ok (some dm) => decide ((0:ℚ) ≤ dm.SmUtilization)
  | _ => true

/-- Adopting this PID's telemetry energy cannot regress the stored record:
either no telemetry answer, or the stored record is Estimated (its energy
is preserved on upsert), or the telemetry energy is at least the stored
energy. -/
def telAdoptOK (env : CycleEnv) (pid : Nat) (pmOld : ProcessMetrics) : Bool :=
  match env.dcgmMetrics pid with
  | .ok (some dm) => pmOld.EnergyEstimated || decide (pmOld.EnergyJoules ≤ dm.EnergyConsumed)
  | _ => true

/-- The PID has a retention entry whose grace period has elapsed at `now`. -/
def retentionExpired (rm : RetentionManager) (pid : Nat) (now : ℚ) : Bool :=
  match alistLookup rm.exitedProcesses pid with
  | some t => decide (rm.retention ≤ now - t)
  | none => false

/-! ## Concrete fixtures for witnesses and counterexamples -/

/-- A concrete process record, used as a test fixture. -/
def mkPM (pid g : Nat) (running : Bool) (energy sm : ℚ) (estimated : Bool) : ProcessMetrics :=
  { PID := pid, GPU := g, ProcessName := "python", IsRunning := running,
    EnergyJoules := energy, EnergyEstimated := estimated, SmUtilization := sm,
    MemUtilization := 0, MemoryUsedBytes := 0, StartTime := 0, EndTime := 0,
    PodName := "trainer-a", PodNamespace := "ml", ContainerName := "train",
    ContainerID := "c1" }

/-- A concrete DCGM answer, used as a test fixture. -/
def mkDcgm (g : Nat) (energy sm : ℚ) (running : Bool) : DcgmProcessMetrics :=
  { GPU := g, ProcessName := "python", EnergyConsumed := energy, SmUtilization := sm,
    MemUtilization := 0, MemoryUsedBytes := 0, StartTime := 0, EndTime := 0,
    IsRunning := running }

/-- The default configuration: estimation on, idle power 0, 1 s update
frequency. -/
def cfgDefault : Config :=
  { EnableEnergyEstimation := true, GPUIdlePower := 0, DCGMUpdateFrequency := 1 }

/-- Scenario S2 of the specification: PIDs 100 and 200 co-resident on
GPU 0 with SM utilizations 0.75 and 0.25, GPU power 100 W, idle power 0,
2 s since the last estimation, prior cumulative energy 0 for both. -/
def s2Env : CycleEnv :=
  { discovered := .ok [⟨100, 0⟩, ⟨200, 0⟩]
    containerID := fun _ => .ok "c1"
    podInfo := fun _ => none
    dcgmMetrics := fun p =>
      if p = 100 then .ok (some (mkDcgm 0 0 (3/4) true))
      else if p = 200 then .ok (some (mkDcgm 0 0 (1/4) true))
      else .ok none
    gpuPowerUsage := fun _ => .ok 100
    now := 10 }

def s2Collector : Collector :=
  { processMetrics := [(100, mkPM 100 0 true 0 (3/4) false), (200, mkPM 200 0 true 0 (1/4) false)]
    retention := { exitedProcesses := [], retention := 300 }
    gpuProcessCount := []
    lastEstimationTime := [(0, 8)] }

/-- An environment whose process discovery fails. -/
def errEnv : CycleEnv :=
  { discovered := .error ()
    containerID := fun _ => .ok "c1"
    podInfo := fun _ => none
    dcgmMetrics := fun _ => .ok none
    gpuPowerUsage := fun _ => .ok 0
    now := 7 }

/-- A populated collector state, used to observe that failed cycles leave
it untouched. -/
def popCollector : Collector :=
  { processMetrics := [(1, mkPM 1 0 true 5 (1/2) false)]
    retention := { exitedProcesses := [(2, 1)], retention := 300 }
    gpuProcessCount := [(0, 1)]
    lastEstimationTime := [(0, 4)] }

/-- Two running records on GPU 2, both with zero SM utilization. -/
def zeroSmStore : List (Nat × ProcessMetrics) :=
  [(1, mkPM 1 2 true 0 0 false), (2, mkPM 2 2 true 0 0 false)]

/-- A snapshot with one running record (10 J) and one exited-in-retention
record (5 J), both on GPU 0. -/
def mixedSnapshot : List ProcessMetrics :=
  [mkPM 1 0 true 10 (1/2) false, mkPM 2 0 false 5 (1/2) false]

/-- One PID whose telemetry energy (50 J) is below the stored cumulative
(100 J), exercising the upsert with a regressing counter. -/
def regressEnv : CycleEnv :=
  { discovered := .ok [⟨1, 0⟩]
    containerID := fun _ => .ok "c1"
    podInfo := fun _ => none
    dcgmMetrics := fun _ => .ok (some (mkDcgm 0 50 (1/2) true))
    gpuPowerUsage := fun _ => .ok 100
    now := 10 }

def regressCollector : Collector :=
  { processMetrics := [(1, mkPM 1 0 true 100 (1/2) false)]
    retention := { exitedProcesses := [], retention := 300 }
    gpuProcessCount := []
    lastEstimationTime := [] }

/-- One PID whose telemetry energy (120 J) is above the stored
cumulative (100 J): the non-regressing case. -/
def riseEnv : CycleEnv :=
  { discovered := .ok [⟨1, 0⟩]
    containerID := fun _ => .ok "c1"
    podInfo := fun _ => none
    dcgmMetrics := fun _ => .ok (some (mkDcgm 0 120 (1/2) true))
    gpuPowerUsage := fun _ => .ok 100
    now := 10 }

/-- A cycle rediscovering PID 5, whose stored record is already
Estimated with 30 J, while telemetry reports 7 J. -/
def latchEnv : CycleEnv :=
  { discovered := .ok [⟨5, 0⟩]
    containerID := fun _ => .ok "c1"
    podInfo := fun _ => none
    dcgmMetrics := fun _ => .ok (some (mkDcgm 0 7 (1/2) true))
    gpuPowerUsage := fun _ => .ok 100
    now := 10 }

def latchCollector : Collector :=
  { processMetrics := [(5, mkPM 5 0 true 30 (1/2) true)]
    retention := { exitedProcesses := [], retention := 300 }
    gpuProcessCount := []
    lastEstimationTime := [] }

/-- A cycle discovering nothing while PID 7 is in the store: the
exit-marking path. -/
def exitEnv : CycleEnv :=
  { discovered := .ok []
    containerID := fun _ => .ok "c1"
    podInfo := fun _ => none
    dcgmMetrics := fun _ => .ok none
    gpuPowerUsage := fun _ => .ok 100
    now := 5 }

def exitCollector : Collector :=
  { processMetrics := [(7, mkPM 7 0 true 0 (1/2) false)]
    retention := { exitedProcesses := [], retention := 300 }
    gpuProcessCount := []
    lastEstimationTime := [] }

/-- PID 9 is rediscovered and recorded this cycle, but its retention
entry (exit at t=1, retention 5 s, now 10) has expired. -/
def reapEnv : CycleEnv :=
  { discovered := .ok [⟨9, 0⟩]
    containerID := fun _ => .ok "c1"
    podInfo := fun _ => none
    dcgmMetrics := fun _ => .ok (some (mkDcgm 0 0 (1/2) true))
    gpuPowerUsage := fun _ => .ok 100
    now := 10 }

def reapCollector : Collector :=
  { processMetrics := [(9, mkPM 9 0 true 0 (1/2) false)]
    retention := { exitedProcesses := [(9, 1)], retention := 5 }
    gpuProcessCount := []
    lastEstimationTime := [] }

/-! ## Association-list lemmas -/

theorem alistLookup_insert_self {α : Type} (l : List (Nat × α)) (k : Nat) (v : α) :
    alistLookup (alistInsert l k v) k = some v := by
  induction l with
  | nil => simp [alistInsert, alistLookup]
  | cons e rest ih =>
    by_cases h : e.1 = k
    · simp [alistInsert, alistLookup, h]
    · simp [alistInsert, alistLookup, h, ih]

theorem alistLookup_insert_ne {α : Type} (l : List (Nat × α)) (k : Nat) (v : α)
    (k' : Nat) (h : k' ≠ k) :
    alistLookup (alistInsert l k v) k' = alistLookup l k' := by
  induction l with
  | nil =>
    simp only [alistInsert, alistLookup]
    exact if_neg (fun hk => h hk.symm)
  | cons e rest ih =>
    by_cases hek : e.1 = k
    · simp only [alistInsert, if_pos hek, alistLookup]
      rw [if_neg (fun hk => h hk.symm), if_neg (by rw [hek]; exact fun hk => h hk.symm)]
    · simp only [alistInsert, if_neg hek, alistLookup]
      by_cases he : e.1 = k'
      · rw [if_pos he, if_pos he]
      · rw [if_neg he, if_neg he, ih]

theorem alistLookup_erase_self {α : Type} (l : List (Nat × α)) (k : Nat) :
    alistLookup (alistErase l k) k = none := by
  induction l with
  | nil => simp [alistErase, alistLookup]
  | cons e rest ih =>
    by_cases h : e.1 = k
    · simp [alistErase, h, ih]
    · simp [alistErase, alistLookup, h, ih]

theorem alistLookup_erase_ne {α : Type} (l : List (Nat × α)) (k k' : Nat) (h : k' ≠ k) :
    alistLookup (alistErase l k) k' = alistLookup l k' := by
  induction l with
  | nil => simp [alistErase]
  | cons e rest ih =>
    by_cases hek : e.1 = k
    · rw [alistErase, if_pos hek, ih, alistLookup, if_neg (by rw [hek]; exact fun hk => h hk.symm)]
    · rw [alistErase, if_neg hek, alistLookup, alistLookup, ih]

theorem alistLookup_mapVals {α : Type} (f : Nat → α → α) (l : List (Nat × α)) (k : Nat) :
    alistLookup (alistMapVals f l) k = (alistLookup l k).map (f k) := by
  induction l with
  | nil => simp [alistMapVals, alistLookup]
  | cons e rest ih =>
    by_cases h : e.1 = k
    · subst h; simp [alistMapVals, alistLookup]
    · simpa [alistMapVals, alistLookup, h] using ih

theorem alistLookup_mem {α : Type} {l : List (Nat × α)} {k : Nat} {v : α}
    (h : alistLookup l k = some v) : (k, v) ∈ l := by
  induction l with
  | nil => simp [alistLookup] at h
  | cons e rest ih =>
    by_cases he : e.1 = k
    · rw [alistLookup, if_pos he, Option.some.injEq] at h
      exact List.mem_cons.mpr (Or.inl (Prod.ext he h).symm)
    · rw [alistLookup, if_neg he] at h
      exact List.mem_cons_of_mem _ (ih h)

theorem alistLookup_eq_none_of_not_mem_keys {α : Type} {l : List (Nat × α)} {k : Nat}
    (h : k ∉ l.map Prod.fst) : alistLookup l k = none := by
  induction l with
  | nil => rfl
  | cons e rest ih =>
    rw [List.map_cons, List.mem_cons, not_or] at h
    rw [alistLookup, if_neg (fun he => h.1 he.symm), ih h.2]

theorem alistLookup_isSome_iff_mem_keys {α : Type} (l : List (Nat × α)) (k : Nat) :
    (alistLookup l k).isSome = true ↔ k ∈ l.map Prod.fst := by
  induction l with
  | nil => simp [alistLookup]
  | cons e rest ih =>
    by_cases h : e.1 = k
    · simp [alistLookup, h]
    · simp only [alistLookup, if_neg h, List.map_cons, List.mem_cons, ih]
      constructor
      · exact fun hm => Or.inr hm
      · rintro (hk | hm)
        · exact absurd hk.symm h
        · exact hm

theorem mem_alistInsert {α : Type} {l : List (Nat × α)} {k : Nat} {v : α} {e : Nat × α}
    (h : e ∈ alistInsert l k v) : e ∈ l ∨ e = (k, v) := by
  induction l with
  | nil => simpa [alistInsert] using h
  | cons e' rest ih =>
    by_cases he : e'.1 = k
    · rw [alistInsert, if_pos he] at h
      rcases List.mem_cons.mp h with h1 | h2
      · exact Or.inr h1
      · exact Or.inl (List.mem_cons_of_mem _ h2)
    · rw [alistInsert, if_neg he] at h
      rcases List.mem_cons.mp h with h1 | h2
      · exact Or.inl (h1 ▸ List.mem_cons_self _ _)
      · rcases ih h2 with h3 | h4
        · exact Or.inl (List.mem_cons_of_mem _ h3)
        · exact Or.inr h4

theorem mem_alistErase {α : Type} {l : List (Nat × α)} {k : Nat} {e : Nat × α}
    (h : e ∈ alistErase l k) : e ∈ l := by
  induction l with
  | nil => simp [alistErase] at h
  | cons e' rest ih =>
    by_cases he : e'.1 = k
    · rw [alistErase, if_pos he] at h
      exact List.mem_cons_of_mem _ (ih h)
    · rw [alistErase, if_neg he] at h
      rcases List.mem_cons.mp h with h1 | h2
      · exact h1 ▸ List.mem_cons_self _ _
      · exact List.mem_cons_of_mem _ (ih h2)

theorem NodupKeys_alistInsert {α : Type} {l : List (Nat × α)} (h : NodupKeys l)
    (k : Nat) (v : α) : NodupKeys (alistInsert l k v) := by
  induction l with
  | nil => simp [NodupKeys, alistInsert]
  | cons e rest ih =>
    rw [NodupKeys, List.map_cons, List.nodup_cons] at h
    by_cases he : e.1 = k
    · rw [NodupKeys, alistInsert, if_pos he, List.map_cons, List.nodup_cons]
      exact ⟨he ▸ h.1, h.2⟩
    · rw [NodupKeys, alistInsert, if_neg he, List.map_cons, List.nodup_cons]
      refine ⟨fun hm => ?_, ih h.2⟩
      rw [List.mem_map] at hm
      obtain ⟨e', he', hfst⟩ := hm
      rcases mem_alistInsert he' with h1 | h2
      · exact h.1 (List.mem_map.mpr ⟨e', h1, hfst⟩)
      · exact he (hfst ▸ h2 ▸ rfl)

theorem alistLookup_filter_of_nodup {α : Type} {l : List (Nat × α)} (h : NodupKeys l)
    (p : Nat × α → Bool) {k : Nat} {v : α} (hl : alistLookup l k = some v) :
    alistLookup (l.filter p) k = if p (k, v) then some v else none := by
  induction l with
  | nil => simp [alistLookup] at hl
  | cons e rest ih =>
    rw [NodupKeys, List.map_cons, List.nodup_cons] at h
    by_cases he : e.1 = k
    · rw [alistLookup, if_pos he, Option.some.injEq] at hl
      have hekv : e = (k, v) := Prod.ext he hl
      subst hekv
      by_cases hp : p (k, v) = true
      · rw [List.filter_cons_of_pos hp, if_pos hp]
        simp [alistLookup]
      · rw [List.filter_cons_of_neg (by simpa using hp), if_neg hp]
        apply alistLookup_eq_none_of_not_mem_keys
        intro hm
        rw [List.mem_map] at hm
        obtain ⟨e', he', hfst⟩ := hm
        exact h.1 (List.mem_map.mpr ⟨e', List.mem_of_mem_filter he', by rw [hfst]⟩)
    · rw [alistLookup, if_neg he] at hl
      by_cases hp : p e = true
      · rw [List.filter_cons_of_pos hp, alistLookup, if_neg he, ih h.2 hl]
      · rw [List.filter_cons_of_neg (by simpa using hp), ih h.2 hl]

/-! ## Record-field reductions -/

theorem buildProcessMetrics_PID (proc : DiscoveredProcess) (cid : String)
    (pod : Option PodInfo) (m : DcgmProcessMetrics) :
    (buildProcessMetrics proc cid pod m).PID = proc.PID := rfl

theorem buildProcessMetrics_EnergyJoules (proc : DiscoveredProcess) (cid : String)
    (pod : Option PodInfo) (m : DcgmProcessMetrics) :
    (buildProcessMetrics proc cid pod m).EnergyJoules = m.EnergyConsumed := rfl

theorem buildProcessMetrics_SmUtilization (proc : DiscoveredProcess) (cid : String)
    (pod : Option PodInfo) (m : DcgmProcessMetrics) :
    (buildProcessMetrics proc cid pod m).SmUtilization = m.SmUtilization := rfl

/-! ## Upsert-phase lemmas -/

theorem upsertPhase_nil (env : CycleEnv) (store : List (Nat × ProcessMetrics)) :
    upsertPhase env store [] = store := rfl

theorem upsertPhase_cons (env : CycleEnv) (store : List (Nat × ProcessMetrics))
    (p : DiscoveredProcess) (rest : List DiscoveredProcess) :
    upsertPhase env store (p :: rest) = upsertPhase env (processOne env store p) rest := rfl

/-- Equation lemma: container-ID error skips the PID. -/
theorem processOne_cid_err (env : CycleEnv) (store : List (Nat × ProcessMetrics))
    (proc : DiscoveredProcess) (e : Unit) (h : env.containerID proc.PID = .error e) :
    processOne env store proc = store := by
  unfold processOne; rw [h]

/-- Equation lemma: with a container ID in hand, the iteration reduces to
the empty-ID check and the DCGM fetch. -/
theorem processOne_ok (env : CycleEnv) (store : List (Nat × ProcessMetrics))
    (proc : DiscoveredProcess) (cid : String) (h : env.containerID proc.PID = .ok cid) :
    processOne env store proc =
      (if cid = "" then store
       else
         match env.dcgmMetrics proc.PID with
         | .error _ => store
         | .ok none => store
         | .ok (some m) => upsertProcess store (buildProcessMetrics proc cid (env.podInfo cid) m)) := by
  unfold processOne; rw [h]

/-- Equation lemma: upsert of a fresh PID. -/
theorem upsertProcess_none (store : List (Nat × ProcessMetrics)) (pm : ProcessMetrics)
    (h : alistLookup store pm.PID = none) :
    upsertProcess store pm = alistInsert store pm.PID pm := by
  simp [upsertProcess, h]

/-- Equation lemma: upsert over a prior `Estimated` record. -/
theorem upsertProcess_some_est (store : List (Nat × ProcessMetrics)) (pm ex : ProcessMetrics)
    (h : alistLookup store pm.PID = some ex) (hex : ex.EnergyEstimated = true) :
    upsertProcess store pm = alistInsert store pm.PID
      { pm with EnergyJoules := ex.EnergyJoules, EnergyEstimated := true } := by
  simp [upsertProcess, h, hex]

/-- Equation lemma: upsert over a prior non-`Estimated` record adopts the
fresh record unconditionally. -/
theorem upsertProcess_some_meas (store : List (Nat × ProcessMetrics)) (pm ex : ProcessMetrics)
    (h : alistLookup store pm.PID = some ex) (hex : ¬ex.EnergyEstimated = true) :
    upsertProcess store pm = alistInsert store pm.PID pm := by
  simp [upsertProcess, h, hex]

/-- The store write of an upsert always happens at the record's own PID;
the entry of any other PID is untouched. -/
theorem upsertProcess_lookup_ne (store : List (Nat × ProcessMetrics))
    (pm : ProcessMetrics) (pid : Nat) (h : pm.PID ≠ pid) :
    alistLookup (upsertProcess store pm) pid = alistLookup store pid := by
  cases hl : alistLookup store pm.PID with
  | none =>
    rw [upsertProcess_none store pm hl]
    exact alistLookup_insert_ne _ _ _ _ (fun hk => h hk.symm)
  | some ex =>
    by_cases hex : ex.EnergyEstimated = true
    · rw [upsertProcess_some_est store pm ex hl hex]
      exact alistLookup_insert_ne _ _ _ _ (fun hk => h hk.symm)
    · rw [upsertProcess_some_meas store pm ex hl hex]
      exact alistLookup_insert_ne _ _ _ _ (fun hk => h hk.symm)

/-- Equation lemma: the fully-recorded path of the loop body. -/
theorem processOne_rec (env : CycleEnv) (store : List (Nat × ProcessMetrics))
    (proc : DiscoveredProcess) (cid : String) (m : DcgmProcessMetrics)
    (hc : env.containerID proc.PID = .ok cid) (hcid : cid ≠ "")
    (hd : env.dcgmMetrics proc.PID = .ok (some m)) :
    processOne env store proc =
      upsertProcess store (buildProcessMetrics proc cid (env.podInfo cid) m) := by
  rw [processOne_ok env store proc cid hc, if_neg hcid, hd]

/-- Equation lemma: DCGM error skips the PID. -/
theorem processOne_dcgm_err (env : CycleEnv) (store : List (Nat × ProcessMetrics))
    (proc : DiscoveredProcess) (cid : String) (e : Unit)
    (hc : env.containerID proc.PID = .ok cid) (hcid : cid ≠ "")
    (hd : env.dcgmMetrics proc.PID = .error e) :
    processOne env store proc = store := by
  rw [processOne_ok env store proc cid hc, if_neg hcid, hd]

/-- Equation lemma: absent DCGM data skips the PID. -/
theorem processOne_dcgm_none (env : CycleEnv) (store : List (Nat × ProcessMetrics))
    (proc : DiscoveredProcess) (cid : String)
    (hc : env.containerID proc.PID = .ok cid) (hcid : cid ≠ "")
    (hd : env.dcgmMetrics proc.PID = .ok none) :
    processOne env store proc = store := by
  rw [processOne_ok env store proc cid hc, if_neg hcid, hd]

/-- A loop iteration for another PID never changes this PID's entry. -/
theorem processOne_lookup_ne (env : CycleEnv) (store : List (Nat × ProcessMetrics))
    (proc : DiscoveredProcess) (pid : Nat) (h : proc.PID ≠ pid) :
    alistLookup (processOne env store proc) pid = alistLookup store pid := by
  cases hc : env.containerID proc.PID with
  | error e => rw [processOne_cid_err env store proc e hc]
  | ok cid =>
    by_cases hcid : cid = ""
    · rw [processOne_ok env store proc cid hc, if_pos hcid]
    · cases hd : env.dcgmMetrics proc.PID with
      | error e => rw [processOne_dcgm_err env store proc cid e hc hcid hd]
      | ok om =>
        cases om with
        | none => rw [processOne_dcgm_none env store proc cid hc hcid hd]
        | some m =>
          rw [processOne_rec env store proc cid m hc hcid hd]
          exact upsertProcess_lookup_ne store _ pid (by rw [buildProcessMetrics_PID]; exact h)

/-- PIDs absent from the discovery list keep their entry through the whole
upsert loop. -/
theorem upsertPhase_lookup_not_mem (env : CycleEnv) (procs : List DiscoveredProcess) :
    ∀ (store : List (Nat × ProcessMetrics)) (pid : Nat),
    pid ∉ procs.map DiscoveredProcess.PID →
    alistLookup (upsertPhase env store procs) pid = alistLookup store pid := by
  induction procs with
  | nil => intro store pid _; rfl
  | cons p rest ih =>
    intro store pid h
    rw [List.map_cons, List.mem_cons, not_or] at h
    rw [upsertPhase_cons, ih _ _ h.2, processOne_lookup_ne _ _ _ _ (fun hk => h.1 hk.symm)]

/-- The upsert of a prior `Estimated` record preserves the flag and the
accumulated energy, whatever telemetry reports. -/
theorem processOne_estimated (env : CycleEnv) (store : List (Nat × ProcessMetrics))
    (proc : DiscoveredProcess) (pid : Nat) (pm : ProcessMetrics)
    (hl : alistLookup store pid = some pm) (hf : pm.EnergyEstimated = true) :
    ∃ pm', alistLookup (processOne env store proc) pid = some pm' ∧
      pm'.EnergyEstimated = true ∧ pm'.EnergyJoules = pm.EnergyJoules := by
  by_cases hp : proc.PID = pid
  · subst hp
    cases hc : env.containerID proc.PID with
    | error e => rw [processOne_cid_err env store proc e hc]; exact ⟨pm, hl, hf, rfl⟩
    | ok cid =>
      by_cases hcid : cid = ""
      · rw [processOne_ok env store proc cid hc, if_pos hcid]; exact ⟨pm, hl, hf, rfl⟩
      · cases hd : env.dcgmMetrics proc.PID with
        | error e =>
          rw [processOne_dcgm_err env store proc cid e hc hcid hd]; exact ⟨pm, hl, hf, rfl⟩
        | ok om =>
          cases om with
          | none =>
            rw [processOne_dcgm_none env store proc cid hc hcid hd]; exact ⟨pm, hl, hf, rfl⟩
          | some m =>
            rw [processOne_rec env store proc cid m hc hcid hd,
              upsertProcess_some_est store _ pm (by rw [buildProcessMetrics_PID]; exact hl) hf,
              buildProcessMetrics_PID]
            exact ⟨_, alistLookup_insert_self _ _ _, rfl, rfl⟩
  · rw [processOne_lookup_ne env store proc pid hp]
    exact ⟨pm, hl, hf, rfl⟩

/-- Full-loop version of `processOne_estimated`. -/
theorem upsertPhase_estimated (env : CycleEnv) (procs : List DiscoveredProcess) :
    ∀ (store : List (Nat × ProcessMetrics)) (pid : Nat) (pm : ProcessMetrics),
    alistLookup store pid = some pm → pm.EnergyEstimated = true →
    ∃ pm', alistLookup (upsertPhase env store procs) pid = some pm' ∧
      pm'.EnergyEstimated = true ∧ pm'.EnergyJoules = pm.EnergyJoules := by
  induction procs with
  | nil => exact fun store pid pm hl hf => ⟨pm, hl, hf, rfl⟩
  | cons p rest ih =>
    intro store pid pm hl hf
    obtain ⟨pm1, hl1, hf1, he1⟩ := processOne_estimated env store p pid pm hl hf
    obtain ⟨pm2, hl2, hf2, he2⟩ := ih _ pid pm1 hl1 hf1
    exact ⟨pm2, by rw [upsertPhase_cons]; exact hl2, hf2, by rw [he2, he1]⟩

/-- The loop iteration for this PID cannot lower its stored energy when
the telemetry value is non-regressing (the `telAdoptOK` premise) — and
the premise is re-established for the record it stores: a skipped PID
keeps its record, a prior-`Estimated` record stays `Estimated`, and a
freshly adopted record carries exactly the telemetry energy, which the
(per-cycle deterministic) telemetry trivially does not regress. -/
theorem processOne_energy_self (env : CycleEnv) (store : List (Nat × ProcessMetrics))
    (proc : DiscoveredProcess) (pm : ProcessMetrics)
    (hl : alistLookup store proc.PID = some pm)
    (htel : telAdoptOK env proc.PID pm = true) :
    ∃ pm', alistLookup (processOne env store proc) proc.PID = some pm' ∧
      pm.EnergyJoules ≤ pm'.EnergyJoules ∧ telAdoptOK env proc.PID pm' = true := by
  cases hc : env.containerID proc.PID with
  | error e => rw [processOne_cid_err env store proc e hc]; exact ⟨pm, hl, le_refl _, htel⟩
  | ok cid =>
    by_cases hcid : cid = ""
    · rw [processOne_ok env store proc cid hc, if_pos hcid]; exact ⟨pm, hl, le_refl _, htel⟩
    · cases hd : env.dcgmMetrics proc.PID with
      | error e =>
        rw [processOne_dcgm_err env store proc cid e hc hcid hd]
        exact ⟨pm, hl, le_refl _, htel⟩
      | ok om =>
        cases om with
        | none =>
          rw [processOne_dcgm_none env store proc cid hc hcid hd]
          exact ⟨pm, hl, le_refl _, htel⟩
        | some m =>
          rw [processOne_rec env store proc cid m hc hcid hd]
          by_cases hf : pm.EnergyEstimated = true
          · rw [upsertProcess_some_est store _ pm (by rw [buildProcessMetrics_PID]; exact hl) hf,
              buildProcessMetrics_PID]
            refine ⟨_, alistLookup_insert_self _ _ _, le_refl _, ?_⟩
            unfold telAdoptOK
            rw [hd]
            exact Bool.or_eq_true_iff.mpr (Or.inl rfl)
          · rw [upsertProcess_some_meas store _ pm (by rw [buildProcessMetrics_PID]; exact hl) hf,
              buildProcessMetrics_PID]
            unfold telAdoptOK at htel
            rw [hd] at htel
            rcases Bool.or_eq_true_iff.mp htel with h1 | h2
            · exact absurd h1 hf
            · refine ⟨_, alistLookup_insert_self _ _ _,
                buildProcessMetrics_EnergyJoules proc cid (env.podInfo cid) m ▸
                  of_decide_eq_true h2, ?_⟩
              unfold telAdoptOK
              rw [hd]
              exact Bool.or_eq_true_iff.mpr (Or.inr (decide_eq_true
                (le_of_eq (buildProcessMetrics_EnergyJoules proc cid (env.podInfo cid) m))))

/-- Full-loop energy monotonicity of the upsert phase, for an arbitrary
discovery list: a PID may recur (discovery lists it once per GPU it
occupies); each later iteration either skips or re-adopts the same
per-cycle telemetry answer, so with non-regressing telemetry for this
PID the stored energy cannot decrease. -/
theorem upsertPhase_energy_mono (env : CycleEnv) (procs : List DiscoveredProcess) :
    ∀ (store : List (Nat × ProcessMetrics)) (pid : Nat) (pm : ProcessMetrics),
    alistLookup store pid = some pm →
    telAdoptOK env pid pm = true →
    ∃ pm', alistLookup (upsertPhase env store procs) pid = some pm' ∧
      pm.EnergyJoules ≤ pm'.EnergyJoules := by
  induction procs with
  | nil => exact fun store pid pm hl _ => ⟨pm, hl, le_refl _⟩
  | cons p rest ih =>
    intro store pid pm hl htel
    rw [upsertPhase_cons]
    by_cases hp : p.PID = pid
    · obtain ⟨pm1, hl1, hle1, htel1⟩ := processOne_energy_self env store p pm (hp ▸ hl) (hp ▸ htel)
      obtain ⟨pm2, hl2, hle2⟩ := ih _ pid pm1 (hp ▸ hl1) (hp ▸ htel1)
      exact ⟨pm2, hl2, le_trans hle1 hle2⟩
    · exact ih _ pid pm (by rw [processOne_lookup_ne env store p pid hp]; exact hl) htel

/-! ## SM-utilization invariant -/

/-- Every record in the store carries a non-negative SM utilization. -/
def storeSmNonneg (store : List (Nat × ProcessMetrics)) : Prop :=
  ∀ e ∈ store, (0:ℚ) ≤ e.2.SmUtilization

theorem processOne_smNonneg (env : CycleEnv) (store : List (Nat × ProcessMetrics))
    (proc : DiscoveredProcess) (hs : storeSmNonneg store)
    (he : dcgmSmNonneg env proc.PID = true) :
    storeSmNonneg (processOne env store proc) := by
  cases hc : env.containerID proc.PID with
  | error e => rw [processOne_cid_err env store proc e hc]; exact hs
  | ok cid =>
    by_cases hcid : cid = ""
    · rw [processOne_ok env store proc cid hc, if_pos hcid]; exact hs
    · cases hd : env.dcgmMetrics proc.PID with
      | error e => rw [processOne_dcgm_err env store proc cid e hc hcid hd]; exact hs
      | ok om =>
        cases om with
        | none => rw [processOne_dcgm_none env store proc cid hc hcid hd]; exact hs
        | some m =>
          have hm : (0:ℚ) ≤ m.SmUtilization := by
            unfold dcgmSmNonneg at he
            rw [hd] at he
            exact of_decide_eq_true he
          rw [processOne_rec env store proc cid m hc hcid hd]
          cases hl : alistLookup store (buildProcessMetrics proc cid (env.podInfo cid) m).PID with
          | none =>
            rw [upsertProcess_none store _ hl]
            intro e hmem
            rcases mem_alistInsert hmem with h1 | h2
            · exact hs e h1
            · rw [h2]; exact hm
          | some ex =>
            by_cases hex : ex.EnergyEstimated = true
            · rw [upsertProcess_some_est store _ ex hl hex]
              intro e hmem
              rcases mem_alistInsert hmem with h1 | h2
              · exact hs e h1
              · rw [h2]; exact hm
            · rw [upsertProcess_some_meas store _ ex hl hex]
              intro e hmem
              rcases mem_alistInsert hmem with h1 | h2
              · exact hs e h1
              · rw [h2]; exact hm

theorem upsertPhase_smNonneg (env : CycleEnv) (procs : List DiscoveredProcess) :
    ∀ (store : List (Nat × ProcessMetrics)), storeSmNonneg store →
    (∀ p ∈ procs, dcgmSmNonneg env p.PID = true) →
    storeSmNonneg (upsertPhase env store procs) := by
  induction procs with
  | nil => exact fun store hs _ => hs
  | cons p rest ih =>
    intro store hs he
    rw [upsertPhase_cons]
    exact ih _ (processOne_smNonneg env store p hs (he p (List.mem_cons_self _ _)))
      (fun q hq => he q (List.mem_cons_of_mem _ hq))

/-! ## Exit-marking and eviction lemmas -/

theorem markExitedStore_lookup (seen : List Nat) (rm : RetentionManager)
    (store : List (Nat × ProcessMetrics)) (pid : Nat) :
    alistLookup (markExitedStore seen rm store) pid =
      (alistLookup store pid).map
        (fun pm => if exitCandidate seen rm pid then { pm with IsRunning := false } else pm) :=
  alistLookup_mapVals _ store pid

theorem markExitedStore_smNonneg (seen : List Nat) (rm : RetentionManager)
    (store : List (Nat × ProcessMetrics)) (hs : storeSmNonneg store) :
    storeSmNonneg (markExitedStore seen rm store) := by
  intro e he
  unfold markExitedStore alistMapVals at he
  rw [List.mem_map] at he
  obtain ⟨e0, he0, rfl⟩ := he
  by_cases hc : exitCandidate seen rm e0.1 = true
  · simpa [hc] using hs e0 he0
  · simpa [hc] using hs e0 he0

theorem MarkExited_retention (rm : RetentionManager) (pid : Nat) (now : ℚ) :
    (rm.MarkExited pid now).retention = rm.retention := by
  unfold RetentionManager.MarkExited
  cases alistLookup rm.exitedProcesses pid <;> rfl

theorem MarkExited_lookup (rm : RetentionManager) (pid : Nat) (now : ℚ) (k : Nat) :
    alistLookup (rm.MarkExited pid now).exitedProcesses k =
      match alistLookup rm.exitedProcesses pid with
      | some _ => alistLookup rm.exitedProcesses k
      | none => if k = pid then some now else alistLookup rm.exitedProcesses k := by
  unfold RetentionManager.MarkExited
  cases h : alistLookup rm.exitedProcesses pid with
  | some t => rfl
  | none =>
    by_cases hk : k = pid
    · subst hk
      simp [alistLookup_insert_self]
    · simp [alistLookup_insert_ne _ _ _ _ hk, hk]

theorem MarkExited_nodup (rm : RetentionManager) (pid : Nat) (now : ℚ)
    (h : NodupKeys rm.exitedProcesses) : NodupKeys (rm.MarkExited pid now).exitedProcesses := by
  unfold RetentionManager.MarkExited
  cases alistLookup rm.exitedProcesses pid with
  | some t => exact h
  | none => exact NodupKeys_alistInsert h pid now

/-- Conditioning on membership in a cons cell whose head differs. -/
theorem if_mem_cons_of_ne {β : Type} (a b : Nat) (l : List Nat) (h : ¬a = b) (x y : β) :
    (if a ∈ l then x else y) = if a ∈ b :: l then x else y := by
  by_cases hm : a ∈ l
  · rw [if_pos hm, if_pos (List.mem_cons_of_mem _ hm)]
  · rw [if_neg hm, if_neg (fun hmm => hm ((List.mem_cons.mp hmm).resolve_left h))]

/-- The fold of `MarkExited` over a list of store entries: existing exit
times win; otherwise the PIDs in the list receive the cycle clock. -/
theorem markFold_lookup (now : ℚ) (entries : List (Nat × ProcessMetrics)) :
    ∀ (rm : RetentionManager) (k : Nat),
    alistLookup ((entries.foldl (fun r e => r.MarkExited e.1 now) rm).exitedProcesses) k =
      match alistLookup rm.exitedProcesses k with
      | some t => some t
      | none => if k ∈ entries.map Prod.fst then some now else none := by
  induction entries with
  | nil =>
    intro rm k
    cases h : alistLookup rm.exitedProcesses k <;> simp [h]
  | cons e rest ih =>
    intro rm k
    rw [List.foldl_cons, ih, MarkExited_lookup]
    cases hp : alistLookup rm.exitedProcesses e.1 with
    | some t =>
      cases hk : alistLookup rm.exitedProcesses k with
      | some t2 => simp [hk]
      | none =>
        by_cases hke : k = e.1
        · rw [hke] at hk
          rw [hk] at hp
          cases hp
        · simp only [hk]
          exact if_mem_cons_of_ne k e.1 (List.map Prod.fst rest) hke _ _
    | none =>
      by_cases hke : k = e.1
      · subst hke
        rw [if_pos rfl, hp]
        simp
      · rw [if_neg hke]
        cases hk : alistLookup rm.exitedProcesses k with
        | some t2 => simp [hk]
        | none =>
          simp only [hk]
          exact if_mem_cons_of_ne k e.1 (List.map Prod.fst rest) hke _ _

theorem markFold_retention (now : ℚ) (entries : List (Nat × ProcessMetrics)) :
    ∀ (rm : RetentionManager),
    (entries.foldl (fun r e => r.MarkExited e.1 now) rm).retention = rm.retention := by
  induction entries with
  | nil => intro rm; rfl
  | cons e rest ih =>
    intro rm
    rw [List.foldl_cons, ih, MarkExited_retention]

theorem markFold_nodup (now : ℚ) (entries : List (Nat × ProcessMetrics)) :
    ∀ (rm : RetentionManager), NodupKeys rm.exitedProcesses →
    NodupKeys ((entries.foldl (fun r e => r.MarkExited e.1 now) rm).exitedProcesses) := by
  induction entries with
  | nil => exact fun rm h => h
  | cons e rest ih =>
    intro rm h
    rw [List.foldl_cons]
    exact ih _ (MarkExited_nodup rm e.1 now h)

theorem markExitedRM_lookup (seen : List Nat) (rm : RetentionManager)
    (store : List (Nat × ProcessMetrics)) (now : ℚ) (k : Nat) :
    alistLookup (markExitedRM seen rm store now).exitedProcesses k =
      match alistLookup rm.exitedProcesses k with
      | some t => some t
      | none =>
        if k ∈ (store.filter (fun e => exitCandidate seen rm e.1)).map Prod.fst
        then some now else none :=
  markFold_lookup now _ rm k

theorem markExitedRM_retention (seen : List Nat) (rm : RetentionManager)
    (store : List (Nat × ProcessMetrics)) (now : ℚ) :
    (markExitedRM seen rm store now).retention = rm.retention :=
  markFold_retention now _ rm

theorem markExitedRM_nodup (seen : List Nat) (rm : RetentionManager)
    (store : List (Nat × ProcessMetrics)) (now : ℚ) (h : NodupKeys rm.exitedProcesses) :
    NodupKeys (markExitedRM seen rm store now).exitedProcesses :=
  markFold_nodup now _ rm h

/-- The eviction fold: an entry disappears exactly when its PID is in the
walked list and fails `ShouldRetain`. -/
theorem removalFold_lookup (now : ℚ) (rm : RetentionManager) (qs : List Nat) :
    ∀ (store : List (Nat × ProcessMetrics)) (pid : Nat),
    alistLookup
        (qs.foldl (fun s q => if rm.ShouldRetain q now then s else alistErase s q) store) pid =
      if pid ∈ qs ∧ rm.ShouldRetain pid now = false then none else alistLookup store pid := by
  induction qs with
  | nil => intro store pid; simp
  | cons q rest ih =>
    intro store pid
    rw [List.foldl_cons, ih]
    by_cases hq : rm.ShouldRetain q now = true
    · rw [if_pos hq]
      by_cases hpq : pid = q
      · subst hpq
        rw [if_neg (by rintro ⟨-, hf⟩; rw [hq] at hf; cases hf),
          if_neg (by rintro ⟨-, hf⟩; rw [hq] at hf; cases hf)]
      · by_cases hmem : pid ∈ rest ∧ rm.ShouldRetain pid now = false
        · rw [if_pos hmem, if_pos ⟨List.mem_cons_of_mem _ hmem.1, hmem.2⟩]
        · rw [if_neg hmem,
            if_neg (by rintro ⟨hm, hf⟩; exact hmem ⟨(List.mem_cons.mp hm).resolve_left hpq, hf⟩)]
    · rw [if_neg hq]
      have hqf : rm.ShouldRetain q now = false := Bool.not_eq_true _ ▸ hq
      by_cases hpq : pid = q
      · subst hpq
        conv_rhs => rw [if_pos ⟨List.mem_cons_self _ _, hqf⟩]
        by_cases hmem : pid ∈ rest ∧ rm.ShouldRetain pid now = false
        · rw [if_pos hmem]
        · rw [if_neg hmem, alistLookup_erase_self]
      · rw [alistLookup_erase_ne store q pid hpq]
        by_cases hmem : pid ∈ rest ∧ rm.ShouldRetain pid now = false
        · rw [if_pos hmem, if_pos ⟨List.mem_cons_of_mem _ hmem.1, hmem.2⟩]
        · rw [if_neg hmem,
            if_neg (by rintro ⟨hm, hf⟩; exact hmem ⟨(List.mem_cons.mp hm).resolve_left hpq, hf⟩)]

theorem removalPhase_lookup (now : ℚ) (rm : RetentionManager)
    (store : List (Nat × ProcessMetrics)) (pid : Nat) :
    alistLookup (removalPhase now rm store) pid =
      if pid ∈ rm.GetExitedProcesses ∧ rm.ShouldRetain pid now = false then none
      else alistLookup store pid :=
  removalFold_lookup now rm rm.GetExitedProcesses store pid

theorem mem_GetExitedProcesses_iff (rm : RetentionManager) (pid : Nat) :
    pid ∈ rm.GetExitedProcesses ↔ rm.IsExited pid = true := by
  unfold RetentionManager.GetExitedProcesses RetentionManager.IsExited
  rw [← alistLookup_isSome_iff_mem_keys]

theorem removalPhase_smNonneg (now : ℚ) (rm : RetentionManager)
    (store : List (Nat × ProcessMetrics)) (hs : storeSmNonneg store) :
    storeSmNonneg (removalPhase now rm store) := by
  unfold removalPhase
  revert store
  induction rm.GetExitedProcesses with
  | nil => exact fun store hs => hs
  | cons q rest ih =>
    intro store hs
    rw [List.foldl_cons]
    by_cases hq : rm.ShouldRetain q now = true
    · rw [if_pos hq]; exact ih store hs
    · rw [if_neg hq]
      exact ih _ (fun e he => hs e (mem_alistErase he))

/-! ## Estimation-phase lemmas -/

theorem estimationBump_SmUtilization (E tot : ℚ) (g : Nat) (pm : ProcessMetrics) :
    (estimationBump E tot g pm).SmUtilization = pm.SmUtilization := by
  unfold estimationBump
  split <;> rfl

theorem estimationBump_IsRunning (E tot : ℚ) (g : Nat) (pm : ProcessMetrics) :
    (estimationBump E tot g pm).IsRunning = pm.IsRunning := by
  unfold estimationBump
  split <;> rfl

theorem estimationBump_GPU (E tot : ℚ) (g : Nat) (pm : ProcessMetrics) :
    (estimationBump E tot g pm).GPU = pm.GPU := by
  unfold estimationBump
  split <;> rfl

theorem estimationBump_flag (E tot : ℚ) (g : Nat) (pm : ProcessMetrics)
    (h : pm.EnergyEstimated = true) : (estimationBump E tot g pm).EnergyEstimated = true := by
  unfold estimationBump
  split
  · rfl
  · exact h

theorem estimationBump_of_not_running (E tot : ℚ) (g : Nat) (pm : ProcessMetrics)
    (h : pm.IsRunning = false) : estimationBump E tot g pm = pm := by
  unfold estimationBump
  rw [if_neg (by rw [h]; simp)]

theorem estimationBump_of_on_gpu (E tot : ℚ) (g : Nat) (pm : ProcessMetrics)
    (hr : pm.IsRunning = true) (hg : pm.GPU = g) :
    estimationBump E tot g pm =
      { pm with
          EnergyJoules := pm.EnergyJoules + E * (pm.SmUtilization / tot),
          EnergyEstimated := true } := by
  unfold estimationBump
  rw [if_pos (by rw [hr, hg]; simp)]

theorem estimationBump_energy_le (E tot : ℚ) (g : Nat) (pm : ProcessMetrics)
    (hE : 0 ≤ E) (hsm : 0 ≤ pm.SmUtilization) (htot : 0 < tot) :
    pm.EnergyJoules ≤ (estimationBump E tot g pm).EnergyJoules := by
  unfold estimationBump
  split
  · exact le_add_of_nonneg_right (mul_nonneg hE (div_nonneg hsm htot.le))
  · exact le_refl _

theorem activePowerOf_nonneg (cfg : Config) (P : ℚ) : 0 ≤ activePowerOf cfg P := by
  unfold activePowerOf
  split
  · exact le_refl 0
  · linarith [not_lt.mp (by assumption)]

theorem estimationInterval_nonneg (cfg : Config) (now : ℚ) (lastEst : List (Nat × ℚ))
    (g : Nat) (hlast : ∀ e ∈ lastEst, e.2 ≤ now) (hfreq : 0 ≤ cfg.DCGMUpdateFrequency) :
    0 ≤ estimationInterval cfg now lastEst g := by
  cases h : alistLookup lastEst g with
  | none =>
    unfold estimationInterval
    rw [h]
    exact hfreq
  | some t =>
    have ht := hlast (g, t) (alistLookup_mem h)
    simp only at ht
    unfold estimationInterval
    rw [h]
    show 0 ≤ now - t
    linarith

theorem totalSMUtilOn_nonneg (store : List (Nat × ProcessMetrics)) (g : Nat)
    (hs : storeSmNonneg store) : 0 ≤ totalSMUtilOn store g := by
  unfold totalSMUtilOn
  apply List.sum_nonneg
  intro x hx
  rw [List.mem_map] at hx
  obtain ⟨pm, hpm, rfl⟩ := hx
  unfold runningOnGpu at hpm
  have hmem := List.mem_of_mem_filter hpm
  rw [List.mem_map] at hmem
  obtain ⟨e, he, rfl⟩ := hmem
  exact hs e he

/-- Equation lemma: zero total SM utilization skips the whole estimation,
the last-estimation map included. -/
theorem applyEnergyEstimation_zero_sm (cfg : Config) (env : CycleEnv) (gpuID : Nat)
    (store : List (Nat × ProcessMetrics)) (lastEst : List (Nat × ℚ))
    (htot : totalSMUtilOn store gpuID = 0) :
    applyEnergyEstimation cfg env gpuID store lastEst = (store, lastEst) := by
  unfold applyEnergyEstimation
  rw [if_pos htot]

/-- Equation lemma: a power-query error skips the estimation. -/
theorem applyEnergyEstimation_power_err (cfg : Config) (env : CycleEnv) (gpuID : Nat)
    (store : List (Nat × ProcessMetrics)) (lastEst : List (Nat × ℚ)) (e : Unit)
    (htot : ¬totalSMUtilOn store gpuID = 0) (hP : env.gpuPowerUsage gpuID = .error e) :
    applyEnergyEstimation cfg env gpuID store lastEst = (store, lastEst) := by
  unfold applyEnergyEstimation
  rw [if_neg htot, hP]

/-- Equation lemma: the applied estimation distributes the interval energy
and stamps the last-estimation time. -/
theorem applyEnergyEstimation_applied (cfg : Config) (env : CycleEnv) (gpuID : Nat)
    (store : List (Nat × ProcessMetrics)) (lastEst : List (Nat × ℚ)) (P : ℚ)
    (htot : ¬totalSMUtilOn store gpuID = 0) (hP : env.gpuPowerUsage gpuID = .ok P) :
    applyEnergyEstimation cfg env gpuID store lastEst =
      (alistMapVals
        (fun _ pm => estimationBump
          (activePowerOf cfg P * estimationInterval cfg env.now lastEst gpuID)
          (totalSMUtilOn store gpuID) gpuID pm) store,
       alistInsert lastEst gpuID env.now) := by
  unfold applyEnergyEstimation
  rw [if_neg htot, hP]

/-! ## Time-slicing detection lemmas -/

theorem detectStep_retention (cfg : Config) (env : CycleEnv) (acc : Collector) (g : Nat) :
    (detectStep cfg env acc g).retention = acc.retention := by
  simp only [detectStep]
  split
  · rfl
  · split
    · rfl
    · rfl

/-- The store after one detection step: either untouched, or the mapped
estimation bump for this GPU with a successfully fetched power value. -/
theorem detectStep_store_cases (cfg : Config) (env : CycleEnv) (acc : Collector) (g : Nat) :
    (detectStep cfg env acc g).processMetrics = acc.processMetrics ∨
    ∃ P, env.gpuPowerUsage g = .ok P ∧
      ¬totalSMUtilOn acc.processMetrics g = 0 ∧
      (detectStep cfg env acc g).processMetrics =
        alistMapVals
          (fun _ pm => estimationBump
            (activePowerOf cfg P * estimationInterval cfg env.now acc.lastEstimationTime g)
            (totalSMUtilOn acc.processMetrics g) g pm) acc.processMetrics := by
  simp only [detectStep]
  split
  · exact Or.inl rfl
  · split
    · by_cases htot : totalSMUtilOn acc.processMetrics g = 0
      · rw [applyEnergyEstimation_zero_sm cfg env g _ _ htot]
        exact Or.inl rfl
      · cases hP : env.gpuPowerUsage g with
        | error e =>
          rw [applyEnergyEstimation_power_err cfg env g _ _ e htot hP]
          exact Or.inl rfl
        | ok P =>
          rw [applyEnergyEstimation_applied cfg env g _ _ P htot hP]
          exact Or.inr ⟨P, rfl, htot, rfl⟩
    · exact Or.inl rfl

/-- The last-estimation map after one detection step: untouched or stamped
at this GPU with the cycle clock. -/
theorem detectStep_lastEst_cases (cfg : Config) (env : CycleEnv) (acc : Collector) (g : Nat) :
    (detectStep cfg env acc g).lastEstimationTime = acc.lastEstimationTime ∨
    (detectStep cfg env acc g).lastEstimationTime =
      alistInsert acc.lastEstimationTime g env.now := by
  simp only [detectStep]
  split
  · exact Or.inl rfl
  · split
    · by_cases htot : totalSMUtilOn acc.processMetrics g = 0
      · rw [applyEnergyEstimation_zero_sm cfg env g _ _ htot]
        exact Or.inl rfl
      · cases hP : env.gpuPowerUsage g with
        | error e =>
          rw [applyEnergyEstimation_power_err cfg env g _ _ e htot hP]
          exact Or.inl rfl
        | ok P =>
          rw [applyEnergyEstimation_applied cfg env g _ _ P htot hP]
          exact Or.inr rfl
    · exact Or.inl rfl

theorem mapVals_bump_smNonneg (E tot : ℚ) (g : Nat) (store : List (Nat × ProcessMetrics))
    (hs : storeSmNonneg store) :
    storeSmNonneg (alistMapVals (fun _ pm => estimationBump E tot g pm) store) := by
  intro e he
  unfold alistMapVals at he
  rw [List.mem_map] at he
  obtain ⟨e0, he0, rfl⟩ := he
  show (0:ℚ) ≤ (estimationBump E tot g e0.2).SmUtilization
  rw [estimationBump_SmUtilization]
  exact hs e0 he0

theorem detectStep_smNonneg (cfg : Config) (env : CycleEnv) (acc : Collector) (g : Nat)
    (hs : storeSmNonneg acc.processMetrics) :
    storeSmNonneg (detectStep cfg env acc g).processMetrics := by
  rcases detectStep_store_cases cfg env acc g with h | ⟨P, _, _, h⟩
  · rw [h]; exact hs
  · rw [h]; exact mapVals_bump_smNonneg _ _ _ _ hs

theorem detectStep_lastEst_le (cfg : Config) (env : CycleEnv) (acc : Collector) (g : Nat)
    (ht : ∀ e ∈ acc.lastEstimationTime, e.2 ≤ env.now) :
    ∀ e ∈ (detectStep cfg env acc g).lastEstimationTime, e.2 ≤ env.now := by
  rcases detectStep_lastEst_cases cfg env acc g with h | h
  · rw [h]; exact ht
  · rw [h]
    intro e he
    rcases mem_alistInsert he with h1 | h2
    · exact ht e h1
    · rw [h2]

theorem detectStep_energy (cfg : Config) (env : CycleEnv) (acc : Collector) (g : Nat)
    (pid : Nat) (pm : ProcessMetrics)
    (hs : storeSmNonneg acc.processMetrics)
    (ht : ∀ e ∈ acc.lastEstimationTime, e.2 ≤ env.now)
    (hfreq : 0 ≤ cfg.DCGMUpdateFrequency)
    (hl : alistLookup acc.processMetrics pid = some pm) :
    ∃ pm', alistLookup (detectStep cfg env acc g).processMetrics pid = some pm' ∧
      pm.EnergyJoules ≤ pm'.EnergyJoules := by
  rcases detectStep_store_cases cfg env acc g with h | ⟨P, _, htot, h⟩
  · rw [h]; exact ⟨pm, hl, le_refl _⟩
  · rw [h, alistLookup_mapVals, hl]
    refine ⟨_, rfl, estimationBump_energy_le _ _ _ _ ?_ ?_ ?_⟩
    · exact mul_nonneg (activePowerOf_nonneg cfg P)
        (estimationInterval_nonneg cfg env.now acc.lastEstimationTime g ht hfreq)
    · exact hs (pid, pm) (alistLookup_mem hl)
    · exact lt_of_le_of_ne (totalSMUtilOn_nonneg acc.processMetrics g hs) (Ne.symm htot)

theorem detectStep_flag (cfg : Config) (env : CycleEnv) (acc : Collector) (g : Nat)
    (pid : Nat) (pm : ProcessMetrics)
    (hl : alistLookup acc.processMetrics pid = some pm) (hf : pm.EnergyEstimated = true) :
    ∃ pm', alistLookup (detectStep cfg env acc g).processMetrics pid = some pm' ∧
      pm'.EnergyEstimated = true := by
  rcases detectStep_store_cases cfg env acc g with h | ⟨P, _, _, h⟩
  · rw [h]; exact ⟨pm, hl, hf⟩
  · rw [h, alistLookup_mapVals, hl]
    exact ⟨_, rfl, estimationBump_flag _ _ _ _ hf⟩

theorem detectStep_not_running (cfg : Config) (env : CycleEnv) (acc : Collector) (g : Nat)
    (pid : Nat) (pm : ProcessMetrics)
    (hl : alistLookup acc.processMetrics pid = some pm) (hr : pm.IsRunning = false) :
    alistLookup (detectStep cfg env acc g).processMetrics pid = some pm := by
  rcases detectStep_store_cases cfg env acc g with h | ⟨P, _, _, h⟩
  · rw [h]; exact hl
  · rw [h, alistLookup_mapVals, hl, Option.map_some', estimationBump_of_not_running _ _ _ _ hr]

theorem detectStep_isSome (cfg : Config) (env : CycleEnv) (acc : Collector) (g : Nat)
    (pid : Nat) :
    (alistLookup (detectStep cfg env acc g).processMetrics pid).isSome =
      (alistLookup acc.processMetrics pid).isSome := by
  rcases detectStep_store_cases cfg env acc g with h | ⟨P, _, _, h⟩
  · rw [h]
  · rw [h, alistLookup_mapVals]
    cases alistLookup acc.processMetrics pid <;> rfl

theorem detectFold_retention (cfg : Config) (env : CycleEnv) (gpus : List Nat) :
    ∀ acc : Collector, (gpus.foldl (detectStep cfg env) acc).retention = acc.retention := by
  induction gpus with
  | nil => intro acc; rfl
  | cons g rest ih =>
    intro acc
    rw [List.foldl_cons, ih, detectStep_retention]

theorem detectFold_energy (cfg : Config) (env : CycleEnv) (gpus : List Nat) :
    ∀ (acc : Collector) (pid : Nat) (pm : ProcessMetrics),
    storeSmNonneg acc.processMetrics →
    (∀ e ∈ acc.lastEstimationTime, e.2 ≤ env.now) →
    0 ≤ cfg.DCGMUpdateFrequency →
    alistLookup acc.processMetrics pid = some pm →
    ∃ pm', alistLookup ((gpus.foldl (detectStep cfg env) acc).processMetrics) pid = some pm' ∧
      pm.EnergyJoules ≤ pm'.EnergyJoules := by
  induction gpus with
  | nil => exact fun acc pid pm _ _ _ hl => ⟨pm, hl, le_refl _⟩
  | cons g rest ih =>
    intro acc pid pm hs ht hfreq hl
    obtain ⟨pm1, hl1, hle1⟩ := detectStep_energy cfg env acc g pid pm hs ht hfreq hl
    obtain ⟨pm2, hl2, hle2⟩ := ih (detectStep cfg env acc g) pid pm1
      (detectStep_smNonneg cfg env acc g hs) (detectStep_lastEst_le cfg env acc g ht) hfreq hl1
    exact ⟨pm2, by rw [List.foldl_cons]; exact hl2, le_trans hle1 hle2⟩

theorem detectFold_flag (cfg : Config) (env : CycleEnv) (gpus : List Nat) :
    ∀ (acc : Collector) (pid : Nat) (pm : ProcessMetrics),
    alistLookup acc.processMetrics pid = some pm → pm.EnergyEstimated = true →
    ∃ pm', alistLookup ((gpus.foldl (detectStep cfg env) acc).processMetrics) pid = some pm' ∧
      pm'.EnergyEstimated = true := by
  induction gpus with
  | nil => exact fun acc pid pm hl hf => ⟨pm, hl, hf⟩
  | cons g rest ih =>
    intro acc pid pm hl hf
    obtain ⟨pm1, hl1, hf1⟩ := detectStep_flag cfg env acc g pid pm hl hf
    obtain ⟨pm2, hl2, hf2⟩ := ih (detectStep cfg env acc g) pid pm1 hl1 hf1
    exact ⟨pm2, by rw [List.foldl_cons]; exact hl2, hf2⟩

theorem detectFold_not_running (cfg : Config) (env : CycleEnv) (gpus : List Nat) :
    ∀ (acc : Collector) (pid : Nat) (pm : ProcessMetrics),
    alistLookup acc.processMetrics pid = some pm → pm.IsRunning = false →
    alistLookup ((gpus.foldl (detectStep cfg env) acc).processMetrics) pid = some pm := by
  induction gpus with
  | nil => exact fun acc pid pm hl _ => hl
  | cons g rest ih =>
    intro acc pid pm hl hr
    rw [List.foldl_cons]
    exact ih (detectStep cfg env acc g) pid pm (detectStep_not_running cfg env acc g pid pm hl hr) hr

theorem detectFold_isSome (cfg : Config) (env : CycleEnv) (gpus : List Nat) :
    ∀ (acc : Collector) (pid : Nat),
    (alistLookup ((gpus.foldl (detectStep cfg env) acc).processMetrics) pid).isSome =
      (alistLookup acc.processMetrics pid).isSome := by
  induction gpus with
  | nil => exact fun acc pid => rfl
  | cons g rest ih =>
    intro acc pid
    rw [List.foldl_cons, ih, detectStep_isSome]

/-! ## Sum lemmas for the attribution invariants -/

theorem list_sum_map_add {α : Type} (l : List α) (f g : α → ℚ) :
    (l.map (fun x => f x + g x)).sum = (l.map f).sum + (l.map g).sum := by
  induction l with
  | nil => simp
  | cons a rest ih =>
    simp only [List.map_cons, List.sum_cons, ih]
    ring

theorem list_sum_map_mul_left {α : Type} (l : List α) (c : ℚ) (f : α → ℚ) :
    (l.map (fun x => c * f x)).sum = c * (l.map f).sum := by
  induction l with
  | nil => simp
  | cons a rest ih =>
    simp only [List.map_cons, List.sum_cons, ih]
    ring

theorem filter_map_comm {α β : Type} (f : α → β) (p : β → Bool) (l : List α) :
    (l.map f).filter p = (l.filter (fun a => p (f a))).map f := by
  induction l with
  | nil => rfl
  | cons a rest ih =>
    simp only [List.map_cons, List.filter_cons]
    by_cases h : p (f a) = true
    · simp [h, ih]
    · simp [h, ih]

/-- The group of running records of a GPU, after the estimation map, is
the bump image of the original group (the bump changes neither
`IsRunning` nor `GPU`). -/
theorem runningOnGpu_mapVals_bump (E tot : ℚ) (g : Nat)
    (store : List (Nat × ProcessMetrics)) :
    runningOnGpu (alistMapVals (fun _ pm => estimationBump E tot g pm) store) g
      = (runningOnGpu store g).map (estimationBump E tot g) := by
  unfold runningOnGpu alistMapVals
  rw [List.map_map]
  have h1 : (Prod.snd ∘ fun e : Nat × ProcessMetrics => (e.1, estimationBump E tot g e.2))
      = (fun e : Nat × ProcessMetrics => estimationBump E tot g e.2) := rfl
  rw [h1]
  have h2 : (fun e : Nat × ProcessMetrics => estimationBump E tot g e.2)
      = (estimationBump E tot g) ∘ Prod.snd := rfl
  rw [h2, ← List.map_map, filter_map_comm]
  congr 1
  apply List.filter_congr
  intro pm _
  rw [estimationBump_IsRunning, estimationBump_GPU]

/-- Total SM utilization of a GPU's running group is invariant under the
estimation bump. -/
theorem totalSMUtilOn_mapVals_bump (E tot : ℚ) (g : Nat)
    (store : List (Nat × ProcessMetrics)) :
    totalSMUtilOn (alistMapVals (fun _ pm => estimationBump E tot g pm) store) g
      = totalSMUtilOn store g := by
  unfold totalSMUtilOn
  rw [runningOnGpu_mapVals_bump, List.map_map]
  congr 1
  apply List.map_congr_left
  intro pm _
  exact estimationBump_SmUtilization E tot g pm

/-- The energy added by one applied estimation, summed over the GPU's
co-resident running records, is exactly the interval energy
`activePower * interval`. -/
theorem estimation_added_sum (cfg : Config) (env : CycleEnv) (g : Nat)
    (store : List (Nat × ProcessMetrics)) (lastEst : List (Nat × ℚ)) (P : ℚ)
    (htot : ¬totalSMUtilOn store g = 0) (hP : env.gpuPowerUsage g = .ok P) :
    ((runningOnGpu (applyEnergyEstimation cfg env g store lastEst).1 g).map
        ProcessMetrics.EnergyJoules).sum
      = ((runningOnGpu store g).map ProcessMetrics.EnergyJoules).sum
        + activePowerOf cfg P * estimationInterval cfg env.now lastEst g := by
  rw [applyEnergyEstimation_applied cfg env g store lastEst P htot hP]
  simp only
  rw [runningOnGpu_mapVals_bump, List.map_map]
  have hbound : ∀ pm ∈ runningOnGpu store g,
      (ProcessMetrics.EnergyJoules ∘ estimationBump
        (activePowerOf cfg P * estimationInterval cfg env.now lastEst g)
        (totalSMUtilOn store g) g) pm
      = pm.EnergyJoules
        + (activePowerOf cfg P * estimationInterval cfg env.now lastEst g / totalSMUtilOn store g)
          * pm.SmUtilization := by
    intro pm hpm
    unfold runningOnGpu at hpm
    have hcond := List.of_mem_filter hpm
    show (estimationBump _ _ g pm).EnergyJoules = _
    unfold estimationBump
    rw [if_pos hcond]
    show pm.EnergyJoules + _ * (pm.SmUtilization / _) = _
    ring
  rw [List.map_congr_left hbound, list_sum_map_add]
  have hmul : ((runningOnGpu store g).map
      (fun pm => (activePowerOf cfg P * estimationInterval cfg env.now lastEst g
        / totalSMUtilOn store g) * pm.SmUtilization)).sum
      = (activePowerOf cfg P * estimationInterval cfg env.now lastEst g / totalSMUtilOn store g)
        * totalSMUtilOn store g := by
    rw [list_sum_map_mul_left]
    rfl
  rw [hmul, div_mul_cancel₀ _ htot]

/-! ## Export-aggregation lemmas -/

/-- Characterization of the per-GPU energy accumulator: after the fold,
the entry of GPU `g` holds the accumulator's starting value plus the sum
of energies of the running records on `g`, and exists only when the
accumulator already had one or some running record of `g` was seen. -/
theorem exportAgg_energy_fold (ms : List ProcessMetrics) :
    ∀ (acc : List (Nat × ℚ) × List (Nat × Nat)) (g : Nat),
    alistLookup (ms.foldl exportAggStep acc).1 g =
      if ms.filter (fun pm => pm.IsRunning && pm.GPU == g) = [] then alistLookup acc.1 g
      else some ((alistLookup acc.1 g).getD 0 +
        ((ms.filter (fun pm => pm.IsRunning && pm.GPU == g)).map ProcessMetrics.EnergyJoules).sum) := by
  induction ms with
  | nil => intro acc g; simp
  | cons pm rest ih =>
    intro acc g
    rw [List.foldl_cons, ih]
    by_cases hr : pm.IsRunning = true
    · by_cases hg : pm.GPU = g
      · have hfilter : (pm :: rest).filter (fun q => q.IsRunning && q.GPU == g)
            = pm :: rest.filter (fun q => q.IsRunning && q.GPU == g) := by
          simp [List.filter_cons, hr, hg]
        rw [hfilter]
        have hstep : (exportAggStep acc pm).1 =
            alistInsert acc.1 pm.GPU ((alistLookup acc.1 pm.GPU).getD 0 + pm.EnergyJoules) := by
          unfold exportAggStep
          rw [if_pos hr]
        have hlook : alistLookup (exportAggStep acc pm).1 g =
            some ((alistLookup acc.1 g).getD 0 + pm.EnergyJoules) := by
          rw [hstep, hg, alistLookup_insert_self]
        by_cases hrest : rest.filter (fun q => q.IsRunning && q.GPU == g) = []
        · rw [if_pos hrest, hlook, if_neg (List.cons_ne_nil _ _), hrest]
          simp [add_assoc]
        · rw [if_neg hrest, hlook, if_neg (List.cons_ne_nil _ _)]
          simp [add_assoc]
      · have hfilter : (pm :: rest).filter (fun q => q.IsRunning && q.GPU == g)
            = rest.filter (fun q => q.IsRunning && q.GPU == g) := by
          simp [List.filter_cons, hg]
        rw [hfilter]
        have hstep : alistLookup (exportAggStep acc pm).1 g = alistLookup acc.1 g := by
          unfold exportAggStep
          rw [if_pos hr]
          exact alistLookup_insert_ne _ _ _ _ (fun hk => hg hk.symm)
        rw [hstep]
    · have hrf : pm.IsRunning = false := Bool.not_eq_true _ ▸ hr
      have hfilter : (pm :: rest).filter (fun q => q.IsRunning && q.GPU == g)
          = rest.filter (fun q => q.IsRunning && q.GPU == g) := by
        simp [List.filter_cons, hrf]
      rw [hfilter]
      have hstep : exportAggStep acc pm = acc := by
        unfold exportAggStep
        rw [if_neg hr]
      rw [hstep]

/-! ## Collect equation lemmas -/

theorem Collect_err (cfg : Config) (env : CycleEnv) (c : Collector) (e : Unit)
    (h : env.discovered = .error e) :
    Collector.Collect cfg env c = (c, some ()) := by
  unfold Collector.Collect
  rw [h]

theorem Collect_ok (cfg : Config) (env : CycleEnv) (c : Collector)
    (procs : List DiscoveredProcess) (h : env.discovered = .ok procs) :
    Collector.Collect cfg env c = (collectCycle cfg env c procs, none) := by
  unfold Collector.Collect
  rw [h]

theorem collectCycle_eq (cfg : Config) (env : CycleEnv) (c : Collector)
    (procs : List DiscoveredProcess) :
    collectCycle cfg env c procs =
      (gpusWithRunning
          (removalPhase env.now
            (markExitedRM (procs.map DiscoveredProcess.PID) c.retention
              (upsertPhase env c.processMetrics procs) env.now)
            (markExitedStore (procs.map DiscoveredProcess.PID) c.retention
              (upsertPhase env c.processMetrics procs)))).foldl
        (detectStep cfg env)
        { c with
          processMetrics :=
            removalPhase env.now
              (markExitedRM (procs.map DiscoveredProcess.PID) c.retention
                (upsertPhase env c.processMetrics procs) env.now)
              (markExitedStore (procs.map DiscoveredProcess.PID) c.retention
                (upsertPhase env c.processMetrics procs)),
          retention :=
            (markExitedRM (procs.map DiscoveredProcess.PID) c.retention
              (upsertPhase env c.processMetrics procs) env.now).CleanupExpired env.now } := rfl

theorem applyEnergyEstimation_applied_fst (cfg : Config) (env : CycleEnv) (gpuID : Nat)
    (store : List (Nat × ProcessMetrics)) (lastEst : List (Nat × ℚ)) (P : ℚ)
    (htot : ¬totalSMUtilOn store gpuID = 0) (hP : env.gpuPowerUsage gpuID = .ok P) :
    (applyEnergyEstimation cfg env gpuID store lastEst).1 =
      alistMapVals
        (fun _ pm => estimationBump
          (activePowerOf cfg P * estimationInterval cfg env.now lastEst gpuID)
          (totalSMUtilOn store gpuID) gpuID pm) store := by
  rw [applyEnergyEstimation_applied cfg env gpuID store lastEst P htot hP]








/-! ## Claims -/

/-- C10: if process discovery fails at the start of a collection cycle,
`Collect` returns an error and the collector state — metric store,
retention exit timestamps, per-GPU process counts and per-GPU
last-estimation timestamps — is exactly the input state. -/
theorem claim_C10_error_atomic (cfg : Config) (env : CycleEnv) (c : Collector) (e : Unit)
    (h : env.discovered = .error e) :
    Collector.Collect cfg env c = (c, some ()) :=
  Collect_err cfg env c e h

theorem claim_C10_witness :
    errEnv.discovered = .error () ∧
    Collector.Collect cfgDefault errEnv popCollector = (popCollector, some ()) :=
  ⟨rfl, claim_C10_error_atomic cfgDefault errEnv popCollector () rfl⟩

/-- C7 (amended): in time-slicing mode with zero total SM utilization,
`applyEnergyEstimation` changes no record's cumulative energy — and it
also leaves `lastEstimationTime` untouched, because the zero-utilization
early return precedes the timestamp update; the skipped interval is
therefore included in the next estimation's interval rather than
discarded. -/
theorem claim_C7_zero_sm_skips (cfg : Config) (env : CycleEnv) (gpuID : Nat)
    (store : List (Nat × ProcessMetrics)) (lastEst : List (Nat × ℚ))
    (htot : totalSMUtilOn store gpuID = 0) :
    applyEnergyEstimation cfg env gpuID store lastEst = (store, lastEst) :=
  applyEnergyEstimation_zero_sm cfg env gpuID store lastEst htot


theorem claim_C7_witness :
    totalSMUtilOn zeroSmStore 2 = 0 ∧
    applyEnergyEstimation cfgDefault s2Env 2 zeroSmStore [(2, 3)] = (zeroSmStore, [(2, 3)]) :=
  ⟨by with_unfolding_all decide, claim_C7_zero_sm_skips cfgDefault s2Env 2 zeroSmStore [(2, 3)] (by with_unfolding_all decide)⟩

/-- C7 counterexample: on the zero-total-SM path the per-GPU
last-estimation timestamp is NOT updated to `now` (the claim's "the
algorithm's final step" never runs): with a prior stamp of 3 and `now`
equal to 10 the stamp is still 3 afterwards. -/
theorem claim_C7_counterexample :
    totalSMUtilOn zeroSmStore 2 = 0 ∧
    (applyEnergyEstimation cfgDefault s2Env 2 zeroSmStore [(2, 3)]).2 = [(2, 3)] ∧
    alistLookup (applyEnergyEstimation cfgDefault s2Env 2 zeroSmStore [(2, 3)]).2 2 ≠
      some s2Env.now :=
  ⟨by with_unfolding_all decide, by with_unfolding_all decide, by with_unfolding_all decide⟩

/-- C4: in time-slicing mode with interval `Δt` and active power `P`
(clamped at 0), the energy added over the GPU's co-resident running
records is at most `P·Δt` — with exact rational arithmetic the rounding
`ε` is 0 — and equals `P·Δt` when every co-resident record has non-zero
SM utilization (in fact the shares `sm/total` always sum to 1, so
equality holds whenever the estimation applies at all). -/
theorem claim_C4_sum_bound (cfg : Config) (env : CycleEnv) (g : Nat)
    (store : List (Nat × ProcessMetrics)) (lastEst : List (Nat × ℚ)) (P : ℚ)
    (htot : ¬totalSMUtilOn store g = 0) (hP : env.gpuPowerUsage g = .ok P) :
    ((runningOnGpu (applyEnergyEstimation cfg env g store lastEst).1 g).map
        ProcessMetrics.EnergyJoules).sum
      - ((runningOnGpu store g).map ProcessMetrics.EnergyJoules).sum
      ≤ activePowerOf cfg P * estimationInterval cfg env.now lastEst g ∧
    ((∀ pm ∈ runningOnGpu store g, pm.SmUtilization ≠ 0) →
      ((runningOnGpu (applyEnergyEstimation cfg env g store lastEst).1 g).map
          ProcessMetrics.EnergyJoules).sum
        - ((runningOnGpu store g).map ProcessMetrics.EnergyJoules).sum
        = activePowerOf cfg P * estimationInterval cfg env.now lastEst g) := by
  have h := estimation_added_sum cfg env g store lastEst P htot hP
  constructor
  · rw [h]; linarith
  · intro _; rw [h]; ring

theorem claim_C4_witness :
    ¬totalSMUtilOn s2Collector.processMetrics 0 = 0 ∧
    ((runningOnGpu (applyEnergyEstimation cfgDefault s2Env 0 s2Collector.processMetrics
        [(0, 8)]).1 0).map ProcessMetrics.EnergyJoules).sum
      - ((runningOnGpu s2Collector.processMetrics 0).map ProcessMetrics.EnergyJoules).sum
      = 200 := by
  refine ⟨by with_unfolding_all decide, ?_⟩
  have h := (claim_C4_sum_bound cfgDefault s2Env 0 s2Collector.processMetrics [(0, 8)] 100
    (by with_unfolding_all decide) rfl).2 (by with_unfolding_all decide)
  rw [h]
  with_unfolding_all decide

/-- C2: in time-slicing mode each co-resident running record's cumulative
energy is increased by `active_power * interval_seconds * (sm_util /
total_sm)` with `energy_source` latched to Estimated; concretely, on
scenario S2 (sm 0.75 / 0.25, power 100 W, idle 0, interval 2 s, prior
cumulative 0) a full collection cycle yields 150 J and 50 J, both marked
estimated, and the GPU-0 process count aggregation reports 2. -/
theorem claim_C2_estimation_shares :
    (∀ (cfg : Config) (env : CycleEnv) (g : Nat) (store : List (Nat × ProcessMetrics))
        (lastEst : List (Nat × ℚ)) (P : ℚ) (pid : Nat) (pm : ProcessMetrics),
      alistLookup store pid = some pm → pm.IsRunning = true → pm.GPU = g →
      ¬totalSMUtilOn store g = 0 → env.gpuPowerUsage g = .ok P →
      alistLookup (applyEnergyEstimation cfg env g store lastEst).1 pid =
        some { pm with
          EnergyJoules := pm.EnergyJoules +
            activePowerOf cfg P * estimationInterval cfg env.now lastEst g *
              (pm.SmUtilization / totalSMUtilOn store g),
          EnergyEstimated := true }) ∧
    ((alistLookup (Collector.Collect cfgDefault s2Env s2Collector).1.processMetrics 100).map
        (fun pm => (pm.EnergyJoules, pm.EnergyEstimated)) = some (150, true) ∧
      (alistLookup (Collector.Collect cfgDefault s2Env s2Collector).1.processMetrics 200).map
        (fun pm => (pm.EnergyJoules, pm.EnergyEstimated)) = some (50, true) ∧
      alistLookup (exportGPUAggregations
        ((Collector.Collect cfgDefault s2Env s2Collector).1.processMetrics.map Prod.snd)).2 0 =
        some 2) := by
  constructor
  · intro cfg env g store lastEst P pid pm hl hr hg htot hP
    rw [applyEnergyEstimation_applied_fst cfg env g store lastEst P htot hP,
      alistLookup_mapVals, hl, Option.map_some', estimationBump_of_on_gpu _ _ _ _ hr hg]
  · exact ⟨by with_unfolding_all decide, by with_unfolding_all decide, by with_unfolding_all decide⟩

theorem claim_C2_witness :
    (alistLookup s2Collector.processMetrics 100 = some (mkPM 100 0 true 0 (3/4) false) ∧
      ¬totalSMUtilOn s2Collector.processMetrics 0 = 0) ∧
    alistLookup (applyEnergyEstimation cfgDefault s2Env 0 s2Collector.processMetrics
        [(0, 8)]).1 100 =
      some { mkPM 100 0 true 0 (3/4) false with EnergyJoules := 150, EnergyEstimated := true } := by
  refine ⟨⟨by with_unfolding_all decide, by with_unfolding_all decide⟩, ?_⟩
  have h := claim_C2_estimation_shares.1 cfgDefault s2Env 0 s2Collector.processMetrics [(0, 8)]
    100 100 (mkPM 100 0 true 0 (3/4) false) (by with_unfolding_all decide) (by with_unfolding_all decide) (by with_unfolding_all decide) (by with_unfolding_all decide) rfl
  rw [h]
  with_unfolding_all decide

/-- C8 (amended): when the collection call fails, the exporter's
`Collect` returns before writing anything to the metric channel — it does
NOT emit the metrics held in the store; the scrape still serves a 2xx
because the handler simply contributes zero samples. -/
theorem claim_C8_no_emission_on_error (cfg : Config) (env : CycleEnv) (c : Collector)
    (u : Unit) (h : (Collector.Collect cfg env c).2 = some u) :
    Exporter.Collect cfg env c = ([], [], []) := by
  unfold Exporter.Collect
  rcases hc : Collector.Collect cfg env c with ⟨c', o⟩
  cases o with
  | none => rw [hc] at h; simp at h
  | some u2 => rfl

theorem claim_C8_witness :
    (Collector.Collect cfgDefault errEnv popCollector).2 = some () ∧
    Exporter.Collect cfgDefault errEnv popCollector = ([], [], []) :=
  ⟨by with_unfolding_all decide, claim_C8_no_emission_on_error cfgDefault errEnv popCollector () (by with_unfolding_all decide)⟩

/-- C8 counterexample: a failing discovery with a non-empty store — the
claim says the handler still emits the stored metrics, but nothing at all
is emitted. -/
theorem claim_C8_counterexample :
    (Collector.Collect cfgDefault errEnv popCollector).2 = some () ∧
    popCollector.processMetrics ≠ [] ∧
    Exporter.Collect cfgDefault errEnv popCollector = ([], [], []) :=
  ⟨by with_unfolding_all decide, by with_unfolding_all decide, by with_unfolding_all decide⟩

/-- C9 (amended): the per-GPU energy total sums the cumulative energy of
the RUNNING records on that GPU only; exited-in-retention records (whose
per-process counters are still emitted) are excluded, and a GPU whose
records are all exited emits no aggregate at all. -/
theorem claim_C9_running_only_sum (ms : List ProcessMetrics) (g : Nat)
    (h : ¬ms.filter (fun pm => pm.IsRunning && pm.GPU == g) = []) :
    alistLookup (exportGPUAggregations ms).1 g =
      some (((ms.filter (fun pm => pm.IsRunning && pm.GPU == g)).map
        ProcessMetrics.EnergyJoules).sum) := by
  unfold exportGPUAggregations
  rw [exportAgg_energy_fold ms ([], []) g, if_neg h]
  simp [alistLookup]


theorem claim_C9_witness :
    ¬mixedSnapshot.filter (fun pm => pm.IsRunning && pm.GPU == 0) = [] ∧
    alistLookup (exportGPUAggregations mixedSnapshot).1 0 =
      some (((mixedSnapshot.filter (fun pm => pm.IsRunning && pm.GPU == 0)).map
        ProcessMetrics.EnergyJoules).sum) :=
  ⟨by with_unfolding_all decide, claim_C9_running_only_sum mixedSnapshot 0 (by with_unfolding_all decide)⟩

/-- C9 counterexample: on a snapshot with a running 10 J record and an
exited 5 J record on GPU 0, the emitted aggregate is 10 J, not the 15 J
sum over all records on that GPU that the claim asserts. -/
theorem claim_C9_counterexample :
    alistLookup (exportGPUAggregations mixedSnapshot).1 0 = some 10 ∧
    ((mixedSnapshot.filter (fun pm => pm.GPU == 0)).map ProcessMetrics.EnergyJoules).sum = 15 ∧
    (10:ℚ) ≠ 15 :=
  ⟨by with_unfolding_all decide, by with_unfolding_all decide, by with_unfolding_all decide⟩

/-! ## Presence characterization of the upsert loop -/

/-- One loop iteration makes the PID present exactly when it was present
before or this discovered process is the PID and passes the filters. -/
theorem processOne_isSome_iff (env : CycleEnv) (store : List (Nat × ProcessMetrics))
    (proc : DiscoveredProcess) (pid : Nat) :
    ((alistLookup (processOne env store proc) pid).isSome = true) ↔
      ((proc.PID == pid && isRecorded env proc) = true ∨
        (alistLookup store pid).isSome = true) := by
  cases hc : env.containerID proc.PID with
  | error e =>
    rw [processOne_cid_err env store proc e hc]
    have hrec : isRecorded env proc = false := by
      simp [isRecorded, hc]
    simp [hrec]
  | ok cid =>
    by_cases hcid : cid = ""
    · rw [processOne_ok env store proc cid hc, if_pos hcid]
      have hrec : isRecorded env proc = false := by
        simp [isRecorded, hc, hcid]
      simp [hrec]
    · cases hd : env.dcgmMetrics proc.PID with
      | error e =>
        rw [processOne_dcgm_err env store proc cid e hc hcid hd]
        have hrec : isRecorded env proc = false := by
          simp [isRecorded, hc, hcid, hd]
        simp [hrec]
      | ok om =>
        cases om with
        | none =>
          rw [processOne_dcgm_none env store proc cid hc hcid hd]
          have hrec : isRecorded env proc = false := by
            simp [isRecorded, hc, hcid, hd]
          simp [hrec]
        | some m =>
          rw [processOne_rec env store proc cid m hc hcid hd]
          have hrec : isRecorded env proc = true := by
            simp [isRecorded, hc, hcid, hd]
          by_cases hp : proc.PID = pid
          · subst hp
            cases hl : alistLookup store (buildProcessMetrics proc cid (env.podInfo cid) m).PID with
            | none =>
              rw [upsertProcess_none store _ hl, buildProcessMetrics_PID]
              simp [alistLookup_insert_self, hrec]
            | some ex =>
              by_cases hex : ex.EnergyEstimated = true
              · rw [upsertProcess_some_est store _ ex hl hex, buildProcessMetrics_PID]
                simp [alistLookup_insert_self, hrec]
              · rw [upsertProcess_some_meas store _ ex hl hex, buildProcessMetrics_PID]
                simp [alistLookup_insert_self, hrec]
          · rw [upsertProcess_lookup_ne store _ pid (by rw [buildProcessMetrics_PID]; exact hp)]
            simp [hrec, hp]

/-- Presence after the whole upsert loop. -/
theorem upsertPhase_isSome_iff (env : CycleEnv) (procs : List DiscoveredProcess) :
    ∀ (store : List (Nat × ProcessMetrics)) (pid : Nat),
    ((alistLookup (upsertPhase env store procs) pid).isSome = true) ↔
      (procs.any (fun p => p.PID == pid && isRecorded env p) = true ∨
        (alistLookup store pid).isSome = true) := by
  induction procs with
  | nil =>
    intro store pid
    simp [upsertPhase_nil]
  | cons p rest ih =>
    intro store pid
    rw [upsertPhase_cons, ih, List.any_cons, processOne_isSome_iff]
    constructor
    · rintro (h1 | h2 | h3)
      · exact Or.inl (by rw [h1]; simp)
      · exact Or.inl (by rw [h2]; simp)
      · exact Or.inr h3
    · rintro (h1 | h2)
      · rcases Bool.or_eq_true_iff.mp h1 with h3 | h4
        · exact Or.inr (Or.inl h3)
        · exact Or.inl h4
      · exact Or.inr (Or.inr h2)

/-- C3: once a record's `energy_source` is Estimated it never reverts to
Measured: for any successful collection cycle, a PID whose stored record
was flagged `EnergyEstimated` before the cycle and which still has a
record afterwards is still flagged — the upsert path preserves the flag
(and the accumulated energy) of a prior Estimated record, and the
estimation loop only ever sets the flag to true. -/
theorem claim_C3_estimated_latch (cfg : Config) (env : CycleEnv) (c : Collector)
    (procs : List DiscoveredProcess) (pid : Nat) (pmOld pmNew : ProcessMetrics)
    (hdisc : env.discovered = .ok procs)
    (hold : alistLookup c.processMetrics pid = some pmOld)
    (hflag : pmOld.EnergyEstimated = true)
    (hnew : alistLookup (Collector.Collect cfg env c).1.processMetrics pid = some pmNew) :
    pmNew.EnergyEstimated = true := by
  rw [Collect_ok cfg env c procs hdisc, collectCycle_eq] at hnew
  set seen := procs.map DiscoveredProcess.PID with hseen
  set store1 := upsertPhase env c.processMetrics procs with hstore1
  set store2 := markExitedStore seen c.retention store1 with hstore2
  set rm2 := markExitedRM seen c.retention store1 env.now with hrm2
  set store3 := removalPhase env.now rm2 store2 with hstore3
  set rm3 := rm2.CleanupExpired env.now with hrm3
  set accC : Collector := { c with processMetrics := store3, retention := rm3 } with haccC
  obtain ⟨pm1, hl1, hf1, -⟩ :=
    upsertPhase_estimated env procs c.processMetrics pid pmOld hold hflag
  rw [← hstore1] at hl1
  have hl2 := markExitedStore_lookup seen c.retention store1 pid
  rw [hl1, Option.map_some', ← hstore2] at hl2
  have h3 := removalPhase_lookup env.now rm2 store2 pid
  rw [← hstore3] at h3
  have hstore3acc : alistLookup accC.processMetrics pid = alistLookup store3 pid := rfl
  by_cases hdel : pid ∈ rm2.GetExitedProcesses ∧ rm2.ShouldRetain pid env.now = false
  · exfalso
    rw [if_pos hdel] at h3
    have hiso := detectFold_isSome cfg env (gpusWithRunning store3) accC pid
    rw [hnew, hstore3acc, h3] at hiso
    simp at hiso
  · rw [if_neg hdel, hl2] at h3
    have hf2 : (if exitCandidate seen c.retention pid = true then
        { pm1 with IsRunning := false } else pm1).EnergyEstimated = true := by
      split
      · exact hf1
      · exact hf1
    obtain ⟨pm3, hl3, hf3⟩ := detectFold_flag cfg env (gpusWithRunning store3) accC pid _
      (hstore3acc.trans h3) hf2
    rw [hnew] at hl3
    cases hl3
    exact hf3

theorem claim_C3_witness :
    (latchEnv.discovered = .ok [⟨5, 0⟩] ∧
      alistLookup latchCollector.processMetrics 5 = some (mkPM 5 0 true 30 (1/2) true) ∧
      (mkPM 5 0 true 30 (1/2) true).EnergyEstimated = true) ∧
    ({ buildProcessMetrics ⟨5, 0⟩ "c1" none (mkDcgm 0 7 (1/2) true) with
        EnergyJoules := 30, EnergyEstimated := true } : ProcessMetrics).EnergyEstimated = true :=
  ⟨⟨rfl, by with_unfolding_all decide, rfl⟩,
    claim_C3_estimated_latch cfgDefault latchEnv latchCollector [⟨5, 0⟩] 5
      (mkPM 5 0 true 30 (1/2) true) _ rfl (by with_unfolding_all decide) rfl
      (by with_unfolding_all decide)⟩

/-- C1 (amended): there is no monotonicity clamp in the upsert — the
telemetry value is adopted unconditionally whenever the prior record is
not Estimated — so cumulative energy is non-decreasing across a cycle
only under the premise that adopting telemetry cannot regress this PID
(`telAdoptOK`: no telemetry answer, or prior record Estimated, or
telemetry energy at least the stored energy), together with
non-negative SM utilizations, a cycle clock past the recorded
estimation stamps, and a non-negative configured update frequency.
Under those premises the stored cumulative energy cannot decrease, also
after `is_running` becomes false (exited records are frozen), and for an
arbitrary discovery list — a PID may be listed once per GPU it
occupies. -/
theorem claim_C1_energy_monotone (cfg : Config) (env : CycleEnv) (c : Collector)
    (procs : List DiscoveredProcess) (pid : Nat) (pmOld pmNew : ProcessMetrics)
    (hdisc : env.discovered = .ok procs)
    (hold : alistLookup c.processMetrics pid = some pmOld)
    (htel : telAdoptOK env pid pmOld = true)
    (hsm : storeSmNonneg c.processMetrics)
    (hsmEnv : ∀ p ∈ procs, dcgmSmNonneg env p.PID = true)
    (hlast : ∀ e ∈ c.lastEstimationTime, e.2 ≤ env.now)
    (hfreq : 0 ≤ cfg.DCGMUpdateFrequency)
    (hnew : alistLookup (Collector.Collect cfg env c).1.processMetrics pid = some pmNew) :
    pmOld.EnergyJoules ≤ pmNew.EnergyJoules := by
  rw [Collect_ok cfg env c procs hdisc, collectCycle_eq] at hnew
  set seen := procs.map DiscoveredProcess.PID with hseen
  set store1 := upsertPhase env c.processMetrics procs with hstore1
  set store2 := markExitedStore seen c.retention store1 with hstore2
  set rm2 := markExitedRM seen c.retention store1 env.now with hrm2
  set store3 := removalPhase env.now rm2 store2 with hstore3
  set rm3 := rm2.CleanupExpired env.now with hrm3
  set accC : Collector := { c with processMetrics := store3, retention := rm3 } with haccC
  obtain ⟨pm1, hl1, hle1⟩ :=
    upsertPhase_energy_mono env procs c.processMetrics pid pmOld hold htel
  rw [← hstore1] at hl1
  have hsm1 : storeSmNonneg store1 := by
    rw [hstore1]
    exact upsertPhase_smNonneg env procs c.processMetrics hsm hsmEnv
  have hl2 := markExitedStore_lookup seen c.retention store1 pid
  rw [hl1, Option.map_some', ← hstore2] at hl2
  have hsm2 : storeSmNonneg store2 := by
    rw [hstore2]
    exact markExitedStore_smNonneg seen c.retention store1 hsm1
  have h3 := removalPhase_lookup env.now rm2 store2 pid
  rw [← hstore3] at h3
  have hsm3 : storeSmNonneg store3 := by
    rw [hstore3]
    exact removalPhase_smNonneg env.now rm2 store2 hsm2
  have hstore3acc : alistLookup accC.processMetrics pid = alistLookup store3 pid := rfl
  by_cases hdel : pid ∈ rm2.GetExitedProcesses ∧ rm2.ShouldRetain pid env.now = false
  · exfalso
    rw [if_pos hdel] at h3
    have hiso := detectFold_isSome cfg env (gpusWithRunning store3) accC pid
    rw [hnew, hstore3acc, h3] at hiso
    simp at hiso
  · rw [if_neg hdel, hl2] at h3
    have hpm2e : (if exitCandidate seen c.retention pid = true then
        { pm1 with IsRunning := false } else pm1).EnergyJoules = pm1.EnergyJoules := by
      split
      · rfl
      · rfl
    obtain ⟨pm3, hl3, hle3⟩ := detectFold_energy cfg env (gpusWithRunning store3) accC pid _
      hsm3 hlast hfreq (hstore3acc.trans h3)
    rw [hnew] at hl3
    cases hl3
    calc pmOld.EnergyJoules ≤ pm1.EnergyJoules := hle1
      _ = _ := hpm2e.symm
      _ ≤ pmNew.EnergyJoules := hle3

/-- A store holding PID 1 at 100 J, prior record not Estimated. -/
def riseCollector : Collector := regressCollector

theorem claim_C1_witness :
    (telAdoptOK riseEnv 1 (mkPM 1 0 true 100 (1/2) false) = true ∧
      storeSmNonneg riseCollector.processMetrics ∧
      0 ≤ cfgDefault.DCGMUpdateFrequency) ∧
    (mkPM 1 0 true 100 (1/2) false).EnergyJoules ≤
      (buildProcessMetrics ⟨1, 0⟩ "c1" none (mkDcgm 0 120 (1/2) true)).EnergyJoules :=
  ⟨⟨by with_unfolding_all decide,
      by unfold storeSmNonneg; with_unfolding_all decide,
      by with_unfolding_all decide⟩,
    claim_C1_energy_monotone cfgDefault riseEnv riseCollector [⟨1, 0⟩] 1
      (mkPM 1 0 true 100 (1/2) false)
      (buildProcessMetrics ⟨1, 0⟩ "c1" none (mkDcgm 0 120 (1/2) true))
      rfl (by with_unfolding_all decide)
      (by with_unfolding_all decide)
      (by unfold storeSmNonneg; with_unfolding_all decide)
      (by with_unfolding_all decide) (by with_unfolding_all decide)
      (by with_unfolding_all decide) (by with_unfolding_all decide)⟩

/-- C1 counterexample: with a stored non-Estimated record at 100 J and
telemetry reporting 50 J, the cycle stores 50 J — the telemetry value is
adopted unconditionally, the previous value is not held, and the
cumulative energy regresses. -/
theorem claim_C1_counterexample :
    (alistLookup regressCollector.processMetrics 1).map ProcessMetrics.EnergyJoules =
      some 100 ∧
    (alistLookup (Collector.Collect cfgDefault regressEnv regressCollector).1.processMetrics
      1).map ProcessMetrics.EnergyJoules = some 50 ∧
    ¬((100:ℚ) ≤ 50) :=
  ⟨by with_unfolding_all decide, by with_unfolding_all decide, by with_unfolding_all decide⟩

/-- C5 (amended): at the end of a successful cycle, every PID in the
store that was not discovered this cycle and was not already marked
exited has `IsRunning` cleared and `retention.MarkExited` called for it,
freezing `exited_at = now` in the retention tracker; the record itself is
otherwise untouched — in particular its `EndTime` field is NOT set to the
current time (it keeps whatever the last telemetry reported), so
`is_running = false` does not imply the record's end time is set.
(Premises: a positive retention period, so the freshly marked record
survives this cycle's eviction, and distinct retention keys as in a Go
map.) -/
theorem claim_C5_exit_marking (cfg : Config) (env : CycleEnv) (c : Collector)
    (procs : List DiscoveredProcess) (pid : Nat) (pmOld : ProcessMetrics)
    (hdisc : env.discovered = .ok procs)
    (hnotseen : pid ∉ procs.map DiscoveredProcess.PID)
    (hold : alistLookup c.processMetrics pid = some pmOld)
    (hnotex : c.retention.IsExited pid = false)
    (hR : 0 < c.retention.retention)
    (hnodup : NodupKeys c.retention.exitedProcesses) :
    alistLookup (Collector.Collect cfg env c).1.processMetrics pid =
      some { pmOld with IsRunning := false } ∧
    alistLookup (Collector.Collect cfg env c).1.retention.exitedProcesses pid =
      some env.now := by
  rw [Collect_ok cfg env c procs hdisc, collectCycle_eq]
  set seen := procs.map DiscoveredProcess.PID with hseen
  set store1 := upsertPhase env c.processMetrics procs with hstore1
  set store2 := markExitedStore seen c.retention store1 with hstore2
  set rm2 := markExitedRM seen c.retention store1 env.now with hrm2
  set store3 := removalPhase env.now rm2 store2 with hstore3
  set rm3 := rm2.CleanupExpired env.now with hrm3
  set accC : Collector := { c with processMetrics := store3, retention := rm3 } with haccC
  have hl1 : alistLookup store1 pid = some pmOld := by
    rw [hstore1, upsertPhase_lookup_not_mem env procs c.processMetrics pid (hseen ▸ hnotseen)]
    exact hold
  have hcont : seen.contains pid = false := by
    simpa using hnotseen
  have hcand : exitCandidate seen c.retention pid = true := by
    unfold exitCandidate
    rw [hcont, hnotex]
    rfl
  have hl2 : alistLookup store2 pid = some { pmOld with IsRunning := false } := by
    rw [hstore2, markExitedStore_lookup, hl1, Option.map_some', if_pos hcand]
  have hrm0none : alistLookup c.retention.exitedProcesses pid = none := by
    revert hnotex
    unfold RetentionManager.IsExited
    cases alistLookup c.retention.exitedProcesses pid
    · intro _; rfl
    · intro h; cases h
  have hmemf : pid ∈ (store1.filter (fun e => exitCandidate seen c.retention e.1)).map
      Prod.fst :=
    List.mem_map.mpr ⟨(pid, pmOld),
      List.mem_filter.mpr ⟨alistLookup_mem hl1, hcand⟩, rfl⟩
  have hrm2look : alistLookup rm2.exitedProcesses pid = some env.now := by
    rw [hrm2, markExitedRM_lookup]
    simp only [hrm0none]
    rw [if_pos hmemf]
  have hrm2R : rm2.retention = c.retention.retention := by
    rw [hrm2]
    exact markExitedRM_retention seen c.retention store1 env.now
  have hretain : rm2.ShouldRetain pid env.now = true := by
    unfold RetentionManager.ShouldRetain
    simp only [hrm2look]
    rw [hrm2R]
    exact decide_eq_true (by simpa using hR)
  have h3 : alistLookup store3 pid = some { pmOld with IsRunning := false } := by
    rw [hstore3, removalPhase_lookup,
      if_neg (by rintro ⟨-, hf⟩; rw [hretain] at hf; cases hf), hl2]
  have hnodup2 : NodupKeys rm2.exitedProcesses := by
    rw [hrm2]
    exact markExitedRM_nodup seen c.retention store1 env.now hnodup
  have hrm3look : alistLookup rm3.exitedProcesses pid = some env.now := by
    rw [hrm3]
    unfold RetentionManager.CleanupExpired
    rw [alistLookup_filter_of_nodup hnodup2 _ hrm2look,
      if_pos (show decide (env.now - (pid, env.now).2 < rm2.retention) = true by
        rw [hrm2R]
        exact decide_eq_true (by simpa using hR))]
  constructor
  · exact detectFold_not_running cfg env (gpusWithRunning store3) accC pid
      { pmOld with IsRunning := false } h3 rfl
  · rw [detectFold_retention cfg env (gpusWithRunning store3) accC]
    exact hrm3look

theorem claim_C5_witness :
    ((7 : Nat) ∉ ([] : List DiscoveredProcess).map DiscoveredProcess.PID ∧
      exitCollector.retention.IsExited 7 = false ∧
      0 < exitCollector.retention.retention) ∧
    (alistLookup (Collector.Collect cfgDefault exitEnv exitCollector).1.processMetrics 7 =
      some { mkPM 7 0 true 0 (1/2) false with IsRunning := false } ∧
     alistLookup (Collector.Collect cfgDefault exitEnv exitCollector).1.retention.exitedProcesses
       7 = some exitEnv.now) :=
  ⟨⟨by with_unfolding_all decide, by with_unfolding_all decide, by with_unfolding_all decide⟩,
    claim_C5_exit_marking cfgDefault exitEnv exitCollector [] 7 (mkPM 7 0 true 0 (1/2) false)
      rfl (by with_unfolding_all decide) (by with_unfolding_all decide)
      (by with_unfolding_all decide) (by with_unfolding_all decide)
      (by unfold NodupKeys; with_unfolding_all decide)⟩

/-- C5 counterexample: after the cycle that marks PID 7 exited at
`now = 5`, the record has `IsRunning = false` but its `EndTime` is still
0, not the current time — the exit path never writes `EndTime`, so
"freeze end_time = now" and "is_running=false ⇒ end_time set" fail. -/
theorem claim_C5_counterexample :
    (alistLookup (Collector.Collect cfgDefault exitEnv exitCollector).1.processMetrics 7).map
      (fun pm => (pm.IsRunning, pm.EndTime)) = some (false, 0) ∧
    (0:ℚ) ≠ exitEnv.now :=
  ⟨by with_unfolding_all decide, by with_unfolding_all decide⟩

/-- C6 (amended): after a successful cycle (with positive retention
period), a PID is present in the snapshot iff (it was recorded this
cycle, or it was already present in the store) AND its pre-cycle
retention entry, if any, has not expired.  This differs from the claim in
both directions: a PID that is seen and recorded this cycle is still
evicted when its old retention entry expires this cycle (the eviction
loop ignores `seenPIDs`), and a stale record whose telemetry is missing
this cycle remains present without having been recorded. -/
theorem claim_C6_presence (cfg : Config) (env : CycleEnv) (c : Collector)
    (procs : List DiscoveredProcess) (pid : Nat)
    (hdisc : env.discovered = .ok procs)
    (hR : 0 < c.retention.retention) :
    (alistLookup (Collector.Collect cfg env c).1.processMetrics pid).isSome = true ↔
      ((procs.any (fun p => p.PID == pid && isRecorded env p) = true ∨
        (alistLookup c.processMetrics pid).isSome = true) ∧
       retentionExpired c.retention pid env.now = false) := by
  rw [Collect_ok cfg env c procs hdisc, collectCycle_eq]
  set seen := procs.map DiscoveredProcess.PID with hseen
  set store1 := upsertPhase env c.processMetrics procs with hstore1
  set store2 := markExitedStore seen c.retention store1 with hstore2
  set rm2 := markExitedRM seen c.retention store1 env.now with hrm2
  set store3 := removalPhase env.now rm2 store2 with hstore3
  set rm3 := rm2.CleanupExpired env.now with hrm3
  set accC : Collector := { c with processMetrics := store3, retention := rm3 } with haccC
  rw [detectFold_isSome cfg env (gpusWithRunning store3) accC pid,
    show alistLookup accC.processMetrics pid = alistLookup store3 pid from rfl,
    hstore3, removalPhase_lookup]
  have h2 : (alistLookup store2 pid).isSome = (alistLookup store1 pid).isSome := by
    rw [hstore2, markExitedStore_lookup]
    cases alistLookup store1 pid <;> rfl
  have h1 : (alistLookup store1 pid).isSome = true ↔
      (procs.any (fun p => p.PID == pid && isRecorded env p) = true ∨
        (alistLookup c.processMetrics pid).isSome = true) := by
    rw [hstore1]
    exact upsertPhase_isSome_iff env procs c.processMetrics pid
  have hrm2R : rm2.retention = c.retention.retention := by
    rw [hrm2]
    exact markExitedRM_retention seen c.retention store1 env.now
  cases hrm0 : alistLookup c.retention.exitedProcesses pid with
  | none =>
    have hexp : retentionExpired c.retention pid env.now = false := by
      unfold retentionExpired
      simp only [hrm0]
    have hcondf : ¬(pid ∈ rm2.GetExitedProcesses ∧
        rm2.ShouldRetain pid env.now = false) := by
      by_cases hmemf : pid ∈ (store1.filter (fun e => exitCandidate seen c.retention e.1)).map
          Prod.fst
      · have hrm2look : alistLookup rm2.exitedProcesses pid = some env.now := by
          rw [hrm2, markExitedRM_lookup]
          simp only [hrm0]
          rw [if_pos hmemf]
        have hretain : rm2.ShouldRetain pid env.now = true := by
          unfold RetentionManager.ShouldRetain
          simp only [hrm2look]
          rw [hrm2R]
          exact decide_eq_true (by simpa using hR)
        rintro ⟨-, hf⟩
        rw [hretain] at hf
        cases hf
      · have hrm2look : alistLookup rm2.exitedProcesses pid = none := by
          rw [hrm2, markExitedRM_lookup]
          simp only [hrm0]
          rw [if_neg hmemf]
        rintro ⟨hmem, -⟩
        have := (mem_GetExitedProcesses_iff rm2 pid).mp hmem
        unfold RetentionManager.IsExited at this
        rw [hrm2look] at this
        cases this
    rw [if_neg hcondf, hexp, h2, h1]
    simp
  | some t =>
    have hrm2look : alistLookup rm2.exitedProcesses pid = some t := by
      rw [hrm2, markExitedRM_lookup]
      simp only [hrm0]
    have hmem : pid ∈ rm2.GetExitedProcesses := by
      refine (mem_GetExitedProcesses_iff rm2 pid).mpr ?_
      unfold RetentionManager.IsExited
      rw [hrm2look]
      rfl
    have hretval : rm2.ShouldRetain pid env.now =
        decide (env.now - t < c.retention.retention) := by
      unfold RetentionManager.ShouldRetain
      simp only [hrm2look]
      rw [hrm2R]
    have hexpval : retentionExpired c.retention pid env.now =
        decide (c.retention.retention ≤ env.now - t) := by
      unfold retentionExpired
      simp only [hrm0]
    by_cases hexp : c.retention.retention ≤ env.now - t
    · have hcond : pid ∈ rm2.GetExitedProcesses ∧ rm2.ShouldRetain pid env.now = false :=
        ⟨hmem, by rw [hretval]; exact decide_eq_false (not_lt.mpr hexp)⟩
      rw [if_pos hcond, hexpval, decide_eq_true hexp]
      simp
    · have hcondf : ¬(pid ∈ rm2.GetExitedProcesses ∧
          rm2.ShouldRetain pid env.now = false) := by
        rintro ⟨-, hf⟩
        rw [hretval, decide_eq_true (not_le.mp hexp)] at hf
        cases hf
      rw [if_neg hcondf, h2, h1, hexpval, decide_eq_false hexp]
      simp

theorem claim_C6_witness :
    (exitEnv.discovered = .ok [] ∧ 0 < exitCollector.retention.retention) ∧
    ((alistLookup (Collector.Collect cfgDefault exitEnv exitCollector).1.processMetrics
        7).isSome = true ↔
      ((([] : List DiscoveredProcess).any (fun p => p.PID == 7 && isRecorded exitEnv p) = true ∨
        (alistLookup exitCollector.processMetrics 7).isSome = true) ∧
       retentionExpired exitCollector.retention 7 exitEnv.now = false)) :=
  ⟨⟨rfl, by with_unfolding_all decide⟩,
    claim_C6_presence cfgDefault exitEnv exitCollector [] 7 rfl
      (by with_unfolding_all decide)⟩

/-- C6 counterexample: PID 9 is discovered and recorded this cycle, yet
because its pre-cycle retention entry (exit at t=1, retention 5, now 10)
has expired, the eviction loop removes it — the claim's "present iff seen
this cycle ∨ retained" predicts presence but the snapshot lacks it. -/
theorem claim_C6_counterexample :
    isRecorded reapEnv ⟨9, 0⟩ = true ∧
    reapEnv.discovered = .ok [⟨9, 0⟩] ∧
    alistLookup (Collector.Collect cfgDefault reapEnv reapCollector).1.processMetrics 9 =
      none :=
  ⟨by with_unfolding_all decide, rfl, by with_unfolding_all decide⟩
